import Mathlib

/-! RegexGenerator: a verification development.

Shallow embedding of `regex_generator.hpp` (namespace `mvg::regex`): the two
symbol tables `char_traits<char>` / `char_traits<wchar_t>`, the value classes
`regex_element` and `basic_regex_chain_holder`, and the static factory
`basic_regex_generator`.

Conventions of the embedding.
* A code unit of the narrow character type `char` is its numeric value, a
  natural number; a wide code unit is a `wchar_t` record around its value, so
  that narrow and wide strings stay different types (as `std::string` and
  `std::wstring` are).
* `std::basic_string<char_t>` is `List char_t`; `operator+` is list append.
* `std::basic_string_view<char_t>` is a `string_view`: the viewed characters
  together with the storage that follows them in the viewed buffer, which is
  what a read through `data()` as a C string runs into.
* A member function that mutates `*this` and returns `*this` is a function
  from the old object to the updated object.
-/

namespace mvg.regex

/-! ## Character types -/

/-- The narrow character type `char`: a code unit, given by its numeric value. -/
abbrev char : Type := Nat

/-- The wide character type `wchar_t`: a code unit, given by its numeric value. -/
structure wchar_t where
  code : Nat
deriving DecidableEq

instance (n : Nat) : OfNat wchar_t n := ⟨⟨n⟩⟩

/-- What the templates use of a character type `char_t`: the numeric value of a
code unit (`std::char_traits<char_t>` compares against `char_t()`, the unit of
value zero, when it measures a C string) and the implicit conversion of a
narrow character literal such as `'.'` to `char_t`. -/
class char_type (char_t : Type) where
  code : char_t → Nat
  of_char : char → char_t

instance : char_type char := ⟨fun c => c, fun c => c⟩

instance : char_type wchar_t := ⟨fun c => c.code, fun c => ⟨c⟩⟩

/-! ## Strings and string views -/

/-- The type `std::basic_string<char_t>`. -/
abbrev string_t (char_t : Type) : Type := List char_t

/-- The type `std::basic_string_view<char_t>`: `chars` are the `size()` code units
of the view, `after` is the storage of the viewed buffer from `data() + size()`
on. A view does not own its buffer and need not be followed by a zero unit. -/
structure string_view (char_t : Type) where
  chars : List char_t
  after : List char_t

/-- Conversion of a `std::basic_string` to a view: the string buffer holds the
characters followed by one zero code unit. -/
def string_view.of_string {char_t : Type} [char_type char_t] (s : string_t char_t) :
    string_view char_t :=
  { chars := s, after := [char_type.of_char 0] }

/-- Reading storage as a zero-terminated array (what `operator+` does with a
`const char_t*` operand): the code units before the first zero unit. Storage
with no zero unit is read past its end, which has no defined result. -/
def c_str {char_t : Type} [char_type char_t] : List char_t → Option (string_t char_t)
  | [] => none
  | c :: rest => if char_type.code c = 0 then some [] else (c_str rest).map (fun r => c :: r)

/-- The member `string_view::data()` handed to `operator+`: the buffer from
the first viewed unit on, read as a zero-terminated array. -/
def string_view.data_c_str {char_t : Type} [char_type char_t] (v : string_view char_t) :
    Option (string_t char_t) :=
  c_str (v.chars ++ v.after)

/-- Conversion of a narrow string literal (`const char*`) to a narrow view, as
in `regex_chain_holder_t{""}`: the view ends at the terminating zero. -/
def string_view.of_literal (lit : List char) : string_view char :=
  { chars := lit.takeWhile (fun c => c ≠ 0), after := [0] }

/-! ## Symbol tables -/

/-- The static members of a `char_traits<char_t>` specialisation. -/
structure char_traits (char_t : Type) where
  square_open : char_t
  square_close : char_t
  round_open : char_t
  round_close : char_t
  curly_open : char_t
  curly_close : char_t
  minus_sign : char_t
  plus : char_t
  or_sign : char_t
  power_sign : char_t
  star : char_t
  comma : char_t
  backslash : char_t
  forwardslash : char_t
  question_mark : char_t
  colon : char_t
  s : char_t
  w : char_t
  d : char_t
  S : char_t
  W : char_t
  D : char_t

/-- The specialisation `char_traits<char>`. -/
def char_traits_char : char_traits char :=
  { square_open := 91, square_close := 93, round_open := 40, round_close := 41,
    curly_open := 123, curly_close := 125, minus_sign := 45, plus := 43,
    or_sign := 124, power_sign := 94, star := 42, comma := 44, backslash := 92,
    forwardslash := 47, question_mark := 63, colon := 58,
    s := 115, w := 119, d := 100, S := 83, W := 87, D := 68 }

/-- The specialisation `char_traits<wchar_t>`. -/
def char_traits_wchar_t : char_traits wchar_t :=
  { square_open := 91, square_close := 93, round_open := 40, round_close := 41,
    curly_open := 123, curly_close := 125, minus_sign := 45, plus := 43,
    or_sign := 124, power_sign := 94, star := 42, comma := 44, backslash := 92,
    forwardslash := 47, question_mark := 63, colon := 58,
    s := 115, w := 119, d := 100, S := 83, W := 87, D := 68 }

/-! ## `regex_element` and `basic_regex_chain_holder` -/

/-- The class `regex_element`: one private member `str_`. -/
structure regex_element (char_t : Type) where
  str_ : string_t char_t

/-- The constructor `regex_element(string_view reg_str)`: `str_ = reg_str`
copies the viewed characters. -/
def regex_element.ctor {char_t : Type} (reg_str : string_view char_t) : regex_element char_t :=
  { str_ := reg_str.chars }

/-- The member `regex_element::str()`. -/
def regex_element.str {char_t : Type} (e : regex_element char_t) : string_t char_t := e.str_

/-- A `regex_element_t(...)` expression whose argument is a `string_t` temporary:
the string converts to a view of itself, from which the element is built. -/
def regex_element.of_string {char_t : Type} [char_type char_t] (s : string_t char_t) :
    regex_element char_t :=
  regex_element.ctor (string_view.of_string s)

/-- The class `basic_regex_chain_holder`: one private member `str_`. -/
structure basic_regex_chain_holder (char_t : Type) where
  str_ : string_t char_t

/-- The constructor `basic_regex_chain_holder(string_view_t reg_str) : str_(reg_str)`. -/
def basic_regex_chain_holder.ctor {char_t : Type} (reg_str : string_view char_t) :
    basic_regex_chain_holder char_t :=
  { str_ := reg_str.chars }

/-- The member `basic_regex_chain_holder::str()`. -/
def basic_regex_chain_holder.str {char_t : Type} (c : basic_regex_chain_holder char_t) :
    string_t char_t := c.str_

/-- The member `then_match`: `str_ += elem.str(); return *this;`. The result is
the chain object after the call, which is also what the returned reference
denotes. -/
def basic_regex_chain_holder.then_match {char_t : Type} (self : basic_regex_chain_holder char_t)
    (elem : regex_element char_t) : basic_regex_chain_holder char_t :=
  { str_ := self.str_ ++ elem.str }

/-- The operand of the templated operations: the `static_assert`s admit exactly a
`regex_element_t` or a `regex_chain_holder_t`. -/
inductive RegElement (char_t : Type) where
  | element (e : regex_element char_t)
  | chain (c : basic_regex_chain_holder char_t)

/-- The call `to_match.str()` on an operand of either admitted type. -/
def RegElement.str {char_t : Type} : RegElement char_t → string_t char_t
  | .element e => e.str
  | .chain c => c.str

/-! ## `basic_regex_generator` -/

section generator

variable {char_t : Type} [char_type char_t]

/-- `match_range(start, end)`: `[start-end]`. -/
def match_range (traits : char_traits char_t) (start end_ : char_t) : regex_element char_t :=
  regex_element.of_string
    (((([] ++ [traits.square_open]) ++ [start]) ++ [traits.minus_sign]) ++ [end_]
      ++ [traits.square_close])

/-- `match_or(a, b)`: `a.str() + traits::or_sign + b.str()`. -/
def match_or (traits : char_traits char_t) (a b : RegElement char_t) : regex_element char_t :=
  regex_element.of_string ((a.str ++ [traits.or_sign]) ++ b.str)

/-- `match_any()`: `string_t(1, '.')`. -/
def match_any : regex_element char_t :=
  regex_element.of_string (List.replicate 1 (char_type.of_char 46))

/-- `match_character(ch)`: `string_t{} + ch`. -/
def match_character (ch : char_t) : regex_element char_t :=
  regex_element.of_string ([] ++ [ch])

/-- `match_string(str)`: the view is handed to the element constructor as is. -/
def match_string (str : string_view char_t) : regex_element char_t :=
  regex_element.ctor str

def match_space (traits : char_traits char_t) : regex_element char_t :=
  regex_element.of_string (([] ++ [traits.backslash]) ++ [traits.s])

def match_alpha_char (traits : char_traits char_t) : regex_element char_t :=
  regex_element.of_string (([] ++ [traits.backslash]) ++ [traits.w])

def match_digit (traits : char_traits char_t) : regex_element char_t :=
  regex_element.of_string (([] ++ [traits.backslash]) ++ [traits.d])

def match_not_space (traits : char_traits char_t) : regex_element char_t :=
  regex_element.of_string (([] ++ [traits.backslash]) ++ [traits.S])

def match_not_alpha_char (traits : char_traits char_t) : regex_element char_t :=
  regex_element.of_string (([] ++ [traits.backslash]) ++ [traits.W])

def match_not_digit (traits : char_traits char_t) : regex_element char_t :=
  regex_element.of_string (([] ++ [traits.backslash]) ++ [traits.D])

/-- `match_any_of(chars)`: `string_t{} + '[' + chars.data() + ']'`. The operand
`chars.data()` is a `const char_t*`, appended as a zero-terminated array. -/
def match_any_of (traits : char_traits char_t) (chars : string_view char_t) :
    Option (regex_element char_t) :=
  chars.data_c_str.map fun body =>
    regex_element.of_string ((([] ++ [traits.square_open]) ++ body) ++ [traits.square_close])

/-- `match_none_of(chars)`: `string_t{} + '[' + '^' + chars.data() + ']'`. -/
def match_none_of (traits : char_traits char_t) (chars : string_view char_t) :
    Option (regex_element char_t) :=
  chars.data_c_str.map fun body =>
    regex_element.of_string
      (((([] ++ [traits.square_open]) ++ [traits.power_sign]) ++ body) ++ [traits.square_close])

/-- `match_escaped_char(ch)`: `string_t{} + traits::backslash + ch`. -/
def match_escaped_char (traits : char_traits char_t) (ch : char_t) : regex_element char_t :=
  regex_element.of_string (([] ++ [traits.backslash]) ++ [ch])

/-- `match_zero_or_more(to_match)`: `to_match.str() + traits::star`. -/
def match_zero_or_more (traits : char_traits char_t) (to_match : RegElement char_t) :
    regex_element char_t :=
  regex_element.of_string (to_match.str ++ [traits.star])

/-- `match_one_or_more(to_match)`: `to_match.str() + traits::plus`. -/
def match_one_or_more (traits : char_traits char_t) (to_match : RegElement char_t) :
    regex_element char_t :=
  regex_element.of_string (to_match.str ++ [traits.plus])

/-- `match_zero_or_one(to_match)`: `to_match.str() + traits::question_mark`. -/
def match_zero_or_one (traits : char_traits char_t) (to_match : RegElement char_t) :
    regex_element char_t :=
  regex_element.of_string (to_match.str ++ [traits.question_mark])

/-- `match_group(regex_element_t to_group)`: `(?:` text `)`. -/
def match_group (traits : char_traits char_t) (to_group : regex_element char_t) :
    regex_element char_t :=
  regex_element.of_string
    ((((([] ++ [traits.round_open]) ++ [traits.question_mark]) ++ [traits.colon])
      ++ to_group.str) ++ [traits.round_close])

/-- `match_group(regex_chain_holder_t to_group)`: the chain overload. -/
def match_group_chain (traits : char_traits char_t) (to_group : basic_regex_chain_holder char_t) :
    regex_element char_t :=
  regex_element.of_string
    ((((([] ++ [traits.round_open]) ++ [traits.question_mark]) ++ [traits.colon])
      ++ to_group.str) ++ [traits.round_close])

/-- `capture_group(regex_element_t const& to_capture)`: `(` text `)`. -/
def capture_group (traits : char_traits char_t) (to_capture : regex_element char_t) :
    regex_element char_t :=
  regex_element.of_string ((traits.round_open :: to_capture.str) ++ [traits.round_close])

/-- `capture_group(regex_chain_holder_t const& to_capture)`: the chain overload. -/
def capture_group_chain (traits : char_traits char_t)
    (to_capture : basic_regex_chain_holder char_t) : regex_element char_t :=
  regex_element.of_string ((traits.round_open :: to_capture.str) ++ [traits.round_close])

/-- `create_regex_from_string(initial_reg)`: `regex_chain_holder_t{initial_reg}`. -/
def create_regex_from_string (initial_reg : string_view char_t) :
    basic_regex_chain_holder char_t :=
  basic_regex_chain_holder.ctor initial_reg

/-- The private helper `escape(c)`: `string_t(1, traits::backslash) + c`. -/
def escape (traits : char_traits char_t) (c : char_t) : string_t char_t :=
  List.replicate 1 traits.backslash ++ [c]

end generator

/-- The type `std::size_t`: an unsigned machine count, given by its value (the
machine range is an initial segment of the natural numbers). -/
abbrev size_t : Type := Nat

/-- The library function `std::to_string` at an unsigned count: the decimal numeral, as by
`sprintf` with `%lu`. Its result is a narrow `std::string`. -/
def to_string (n : size_t) : string_t char :=
  if n = 0 then [48] else ((Nat.digits 10 n).reverse).map (fun d : Nat => (48 + d : Nat))

/-- `match_n(to_match, n)`: `to_match.str() + '{' + std::to_string(n) + '}'`. The
middle operand is a `std::string`, so the expression is typed only where
`string_t` is `std::string`, that is for `char_t = char`. -/
def match_n (traits : char_traits char) (to_match : RegElement char) (n : size_t) :
    regex_element char :=
  regex_element.of_string
    (((to_match.str ++ [traits.curly_open]) ++ to_string n) ++ [traits.curly_close])

/-- `match_n_or_more(to_match, n)`: `to_match.str() + '{' + std::to_string(n) + ',' + '}'`;
typed for `char_t = char` only, as `match_n`. -/
def match_n_or_more (traits : char_traits char) (to_match : RegElement char) (n : size_t) :
    regex_element char :=
  regex_element.of_string
    ((((to_match.str ++ [traits.curly_open]) ++ to_string n) ++ [traits.comma])
      ++ [traits.curly_close])

/-- `create_regex()`: `regex_chain_holder_t{""}`. The narrow literal `""` converts
to a view only where `string_view_t` is `std::string_view`, that is for
`char_t = char`. -/
def create_regex : basic_regex_chain_holder char :=
  basic_regex_chain_holder.ctor (string_view.of_literal [0])

/-! ## Decimal numerals (the reading of `dec(n)`) -/

/-- The number a string of decimal digit characters denotes, most significant
digit first. -/
def decimal_value (ds : string_t char) : Nat :=
  ds.foldl (fun (acc c : Nat) => 10 * acc + (c - 48)) 0

/-- The text `ds` is the base-10 numeral of `n`: digit characters only (hence no
sign), no leading zero except for the numeral `0` itself, and value `n`. -/
def is_decimal_numeral (ds : string_t char) (n : Nat) : Prop :=
  ds ≠ [] ∧ (∀ c : Nat, c ∈ ds → 48 ≤ c ∧ c ≤ 57) ∧ (ds.head? = some 48 → ds = [48]) ∧
    decimal_value ds = n

/-! ## The pattern grammar

The grammar that `std::regex` reads by default: ECMA-262, section 15.10.1 of
edition 3 (with the look-ahead groups as assertions, as from edition 5), and
the bracket atom `[:name:]` that the C++ standard adds (section re.grammar).
Texts are lists of code-unit values.

A derived text is meant to be a pattern on every reading of these documents.
Where the productions alone admit a text that a rule outside them turns into
an error, the production is given with the rule as a side condition, and
where the documents differ the narrower one is taken:
* DecimalEscape is derived for `0` only; any other decimal escape is a
  back-reference, an error unless the whole pattern has that many groups;
* IdentityEscape is the one of ECMA-262 (a character that is no IdentifierPart);
  code units above 127, letters or not by the encoding, count as identifier
  parts;
* the bounds of a range are single characters, in order (15.10.2.15), and at
  most 127, the order of larger units being that of a signed or an unsigned
  `char`;
* the bounds of `{n,m}` are in order (15.10.2.5);
* inside brackets, `[` before `:`, `.` or `=` opens a named atom in C++ and is no
  plain character; `[:name:]` is derived for the class names every traits class
  knows, `[.name.]` and `[=name=]`, whose names depend on the locale, are not.
The limits of an engine on the size of a pattern are no part of the grammar.

A production with a lookahead restriction needs the code unit that follows the
derived text: every derivation carries it as `la` (`none` at the end of the
pattern).
-/

/-- DecimalDigit :: one of `0` to `9`. -/
def is_decimal_digit (c : Nat) : Bool := decide (48 ≤ c) && decide (c ≤ 57)

/-- HexDigit :: one of `0`-`9`, `a`-`f`, `A`-`F`. -/
def is_hex_digit (c : Nat) : Bool :=
  is_decimal_digit c || (decide (97 ≤ c) && decide (c ≤ 102)) || (decide (65 ≤ c) && decide (c ≤ 70))

/-- ControlLetter :: one of `a`-`z`, `A`-`Z`. -/
def is_control_letter (c : Nat) : Bool :=
  (decide (97 ≤ c) && decide (c ≤ 122)) || (decide (65 ≤ c) && decide (c ≤ 90))

/-- PatternCharacter :: SourceCharacter but not any of `^ $ \ . * + ? ( ) [ ] { } |`. -/
def is_pattern_character (c : Nat) : Bool :=
  !([94, 36, 92, 46, 42, 43, 63, 40, 41, 91, 93, 123, 125, 124] : List Nat).contains c

/-- DecimalDigits :: DecimalDigit | DecimalDigits DecimalDigit. -/
def is_decimal_digits (s : List Nat) : Bool := !s.isEmpty && s.all is_decimal_digit

/-- The restriction `[lookahead ∉ DecimalDigit]`. -/
def no_digit_ahead : Option Nat → Bool
  | none => true
  | some c => !is_decimal_digit c

/-- IdentifierPart (ECMA-262, 7.6) on the code units up to 127: a letter, a digit,
`$` or `_`. A code unit above 127 counts as one. -/
def is_identifier_part (c : Nat) : Bool :=
  is_control_letter c || is_decimal_digit c || c == 36 || c == 95 || decide (128 ≤ c)

/-- CharacterClassEscape :: one of `d D s S w W`. -/
def is_character_class_escape (e : List Nat) : Bool :=
  match e with
  | [c] => ([100, 68, 115, 83, 119, 87] : List Nat).contains c
  | _ => false

/-- CharacterEscape :: ControlEscape (one of `f n r t v`) | `c` ControlLetter |
HexEscapeSequence (`x` and two hex digits) | UnicodeEscapeSequence (`u` and four
hex digits) | IdentityEscape (SourceCharacter but not IdentifierPart). -/
def is_character_escape (e : List Nat) : Bool :=
  match e with
  | [c] => ([102, 110, 114, 116, 118] : List Nat).contains c || !is_identifier_part c
  | [c, l] => c == 99 && is_control_letter l
  | [c, h1, h2] => c == 120 && is_hex_digit h1 && is_hex_digit h2
  | [c, h1, h2, h3, h4] =>
    c == 117 && is_hex_digit h1 && is_hex_digit h2 && is_hex_digit h3 && is_hex_digit h4
  | _ => false

/-- DecimalEscape :: DecimalIntegerLiteral `[lookahead ∉ DecimalDigit]`, for the
literal `0` (the escape of the zero character); the other literals are
back-references and are not derived. -/
def is_decimal_escape (e : List Nat) (la : Option Nat) : Bool :=
  e == [48] && no_digit_ahead la

/-- AtomEscape :: DecimalEscape | CharacterEscape | CharacterClassEscape. -/
def is_atom_escape (e : List Nat) (la : Option Nat) : Bool :=
  is_decimal_escape e la || is_character_escape e || is_character_class_escape e

/-- ClassEscape :: DecimalEscape | `b` | CharacterEscape | CharacterClassEscape. -/
def is_class_escape (e : List Nat) (la : Option Nat) : Bool :=
  is_decimal_escape e la || e == [98] || is_character_escape e
    || is_character_class_escape e

/-- Assertion :: `^` | `$` | `\b` | `\B` (the look-ahead groups are productions of
`Derives`). -/
def is_assertion (t : List Nat) : Bool :=
  t == [94] || t == [36] || t == [92, 98] || t == [92, 66]

/-- The class names every traits class knows (C++ standard, re.traits):
`alnum alpha blank cntrl digit graph lower print punct space upper xdigit d w s`. -/
def class_names : List (List Nat) :=
  [[97, 108, 110, 117, 109],
   [97, 108, 112, 104, 97],
   [98, 108, 97, 110, 107],
   [99, 110, 116, 114, 108],
   [100, 105, 103, 105, 116],
   [103, 114, 97, 112, 104],
   [108, 111, 119, 101, 114],
   [112, 114, 105, 110, 116],
   [112, 117, 110, 99, 116],
   [115, 112, 97, 99, 101],
   [117, 112, 112, 101, 114],
   [120, 100, 105, 103, 105, 116],
   [100],
   [119],
   [115]]

/-- ClassName, restricted to the names of `class_names`. -/
def is_class_name (s : List Nat) : Bool := class_names.contains s

/-- The two bounds of a range are single characters, in order and at most 127. -/
def is_range_bounds (a b : List Nat) : Bool :=
  match a, b with
  | [x], [y] => decide (x ≤ y) && decide (y ≤ 127)
  | _, _ => false

/-- The code unit after a plain `[` inside brackets does not make it the opening of
a named atom (`[:`, `[.`, `[=`). -/
def no_name_ahead : Option Nat → Bool
  | none => true
  | some c => !(c == 58 || c == 46 || c == 61)

/-- QuantifierPrefix :: `*` | `+` | `?` | `{` DecimalDigits `}` |
`{` DecimalDigits `,}` | `{` DecimalDigits `,` DecimalDigits `}`, the last with its
bounds in order. -/
inductive QuantifierPrefix : List Nat → Prop
  | star : QuantifierPrefix [42]
  | plus : QuantifierPrefix [43]
  | question : QuantifierPrefix [63]
  | exactly (n : List Nat) : is_decimal_digits n = true → QuantifierPrefix (123 :: n ++ [125])
  | at_least (n : List Nat) : is_decimal_digits n = true →
      QuantifierPrefix (123 :: n ++ [44, 125])
  | between (n m : List Nat) : is_decimal_digits n = true → is_decimal_digits m = true →
      decimal_value n ≤ decimal_value m → QuantifierPrefix (123 :: n ++ 44 :: m ++ [125])

/-- Quantifier :: QuantifierPrefix | QuantifierPrefix `?`. -/
inductive Quantifier : List Nat → Prop
  | greedy (q : List Nat) : QuantifierPrefix q → Quantifier q
  | non_greedy (q : List Nat) : QuantifierPrefix q → Quantifier (q ++ [63])

/-- ClassAtomNoDash :: SourceCharacter but not one of `\ ] -` | `\` ClassEscape; a
plain `[` is not followed by `:`, `.` or `=`. -/
inductive ClassAtomNoDash : List Nat → Option Nat → Prop
  | character (c : Nat) (la : Option Nat) : c ≠ 92 → c ≠ 93 → c ≠ 45 →
      (c = 91 → no_name_ahead la = true) → ClassAtomNoDash [c] la
  | escape (e : List Nat) (la : Option Nat) : is_class_escape e la = true →
      ClassAtomNoDash (92 :: e) la

/-- ClassAtom :: `-` | ClassAtomNoDash | `[:` ClassName `:]`. -/
inductive ClassAtom : List Nat → Option Nat → Prop
  | dash (la : Option Nat) : ClassAtom [45] la
  | no_dash (a : List Nat) (la : Option Nat) : ClassAtomNoDash a la → ClassAtom a la
  | ex_class (name : List Nat) (la : Option Nat) : is_class_name name = true →
      ClassAtom (91 :: 58 :: name ++ [58, 93]) la

/-- The nonterminals of a bracket expression body. -/
inductive ClassNonterminal where
  | ClassRanges
  | NonemptyClassRanges
  | NonemptyClassRangesNoDash
deriving DecidableEq

/-- ClassRanges :: (empty) | NonemptyClassRanges.
NonemptyClassRanges :: ClassAtom | ClassAtom NonemptyClassRangesNoDash |
ClassAtom `-` ClassAtom ClassRanges.
NonemptyClassRangesNoDash :: ClassAtom | ClassAtomNoDash NonemptyClassRangesNoDash |
ClassAtomNoDash `-` ClassAtom ClassRanges.
The two atoms around the `-` of a range are range bounds (`is_range_bounds`). -/
inductive ClassDerives : ClassNonterminal → List Nat → Option Nat → Prop
  | ranges_empty (la : Option Nat) : ClassDerives .ClassRanges [] la
  | ranges_nonempty (r : List Nat) (la : Option Nat) :
      ClassDerives .NonemptyClassRanges r la → ClassDerives .ClassRanges r la
  | atom (a : List Nat) (la : Option Nat) : ClassAtom a la →
      ClassDerives .NonemptyClassRanges a la
  | atom_then (a r : List Nat) (la : Option Nat) : ClassAtom a r.head? →
      ClassDerives .NonemptyClassRangesNoDash r la →
      ClassDerives .NonemptyClassRanges (a ++ r) la
  | range (a b r : List Nat) (la : Option Nat) : ClassAtom a (some 45) →
      ClassAtom b (r.head?.or la) → is_range_bounds a b = true →
      ClassDerives .ClassRanges r la →
      ClassDerives .NonemptyClassRanges (a ++ 45 :: b ++ r) la
  | no_dash_atom (a : List Nat) (la : Option Nat) : ClassAtom a la →
      ClassDerives .NonemptyClassRangesNoDash a la
  | no_dash_atom_then (a r : List Nat) (la : Option Nat) : ClassAtomNoDash a r.head? →
      ClassDerives .NonemptyClassRangesNoDash r la →
      ClassDerives .NonemptyClassRangesNoDash (a ++ r) la
  | no_dash_range (a b r : List Nat) (la : Option Nat) : ClassAtomNoDash a (some 45) →
      ClassAtom b (r.head?.or la) → is_range_bounds a b = true →
      ClassDerives .ClassRanges r la →
      ClassDerives .NonemptyClassRangesNoDash (a ++ 45 :: b ++ r) la

/-- CharacterClass :: `[` `[lookahead ∉ {^}]` ClassRanges `]` | `[^` ClassRanges `]`. -/
inductive CharacterClass : List Nat → Prop
  | positive (r : List Nat) : ClassDerives .ClassRanges r (some 93) → r.head? ≠ some 94 →
      CharacterClass (91 :: r ++ [93])
  | negative (r : List Nat) : ClassDerives .ClassRanges r (some 93) →
      CharacterClass (91 :: 94 :: r ++ [93])

/-- The nonterminals of the pattern grammar above the lexical level. -/
inductive Nonterminal where
  | Disjunction
  | Alternative
  | Term
  | Atom
deriving DecidableEq

/-- Disjunction :: Alternative | Alternative `|` Disjunction.
Alternative :: (empty) | Alternative Term.
Term :: Assertion | Atom | Atom Quantifier, where the assertions are those of
`is_assertion` and the look-ahead groups `(?=` Disjunction `)` and
`(?!` Disjunction `)`.
Atom :: PatternCharacter | `.` | `\` AtomEscape | CharacterClass |
`(` Disjunction `)` | `(?:` Disjunction `)`.
`Derives N s la`: the text `s` is derived from the nonterminal `N` when the code
unit after it is `la`. -/
inductive Derives : Nonterminal → List Nat → Option Nat → Prop
  | disjunction_alternative (a : List Nat) (la : Option Nat) :
      Derives .Alternative a la → Derives .Disjunction a la
  | disjunction_bar (a d : List Nat) (la : Option Nat) :
      Derives .Alternative a (some 124) → Derives .Disjunction d la →
      Derives .Disjunction (a ++ 124 :: d) la
  | alternative_empty (la : Option Nat) : Derives .Alternative [] la
  | alternative_term (a t : List Nat) (la : Option Nat) :
      Derives .Alternative a t.head? → Derives .Term t la →
      Derives .Alternative (a ++ t) la
  | term_assertion (t : List Nat) (la : Option Nat) : is_assertion t = true →
      Derives .Term t la
  | term_lookahead (d : List Nat) (la : Option Nat) : Derives .Disjunction d (some 41) →
      Derives .Term (40 :: 63 :: 61 :: d ++ [41]) la
  | term_negative_lookahead (d : List Nat) (la : Option Nat) :
      Derives .Disjunction d (some 41) → Derives .Term (40 :: 63 :: 33 :: d ++ [41]) la
  | term_atom (a : List Nat) (la : Option Nat) : Derives .Atom a la → Derives .Term a la
  | term_quantified (a q : List Nat) (la : Option Nat) :
      Derives .Atom a q.head? → Quantifier q → Derives .Term (a ++ q) la
  | atom_character (c : Nat) (la : Option Nat) : is_pattern_character c = true →
      Derives .Atom [c] la
  | atom_dot (la : Option Nat) : Derives .Atom [46] la
  | atom_escape (e : List Nat) (la : Option Nat) : is_atom_escape e la = true →
      Derives .Atom (92 :: e) la
  | atom_class (cc : List Nat) (la : Option Nat) : CharacterClass cc → Derives .Atom cc la
  | atom_group (d : List Nat) (la : Option Nat) : Derives .Disjunction d (some 41) →
      Derives .Atom (40 :: d ++ [41]) la
  | atom_non_capturing (d : List Nat) (la : Option Nat) : Derives .Disjunction d (some 41) →
      Derives .Atom (40 :: 63 :: 58 :: d ++ [41]) la

/-- Pattern :: Disjunction. The text is a pattern of the grammar. -/
def Pattern (s : List Nat) : Prop := Derives .Disjunction s none

/-- The text is a pattern of the grammar whatever code unit follows it. -/
def SelfContainedPattern (s : List Nat) : Prop := ∀ la, Derives .Disjunction s la

/-- The text is one atom (or group) of the grammar whatever code unit follows it. -/
def SingleAtom (s : List Nat) : Prop := ∀ la, Derives .Atom s la

/-- The code units no derived text begins with: `*`, `+`, `?`, `{`, `}`, `)`, `]`. -/
def cannot_begin (c : Nat) : Bool := ([42, 43, 63, 123, 125, 41, 93] : List Nat).contains c

/-- The text ends in an atom: a self-contained pattern followed by one atom, to
which a quantifier may be suffixed. -/
def EndsInAtom (s : List Nat) : Prop :=
  ∃ p a, s = p ++ a ∧ SelfContainedPattern p ∧ SingleAtom a

/-! ## Chain objects of a program

`basic_regex_chain_holder` has value semantics: its only member is a
`std::string`, its copy constructor is the defaulted one, and `then_match`
writes to `this->str_` only. A program that holds several chain objects is
modelled by a store of objects and the actions it takes on them.
-/

/-- The chain objects a program has constructed, in the order of their
construction; an object is named by its position. -/
abbrev chain_store : Type := List (basic_regex_chain_holder char)

/-- The actions of a program on its chain objects: construct one with
`create_regex()` or `create_regex_from_string(s)`, copy-construct one from the
object at position `i`, call `then_match(elem)` on the object at position `i`. -/
inductive chain_action where
  | create_regex
  | create_regex_from_string (s : string_view char)
  | copy (i : Nat)
  | then_match (i : Nat) (elem : regex_element char)

/-- One action: a constructed object is added at the end of the store;
`then_match` replaces the state of the object it is called on. An action on a
position that holds no object does nothing. -/
def chain_store.step (σ : chain_store) : chain_action → chain_store
  | .create_regex => σ ++ [mvg.regex.create_regex]
  | .create_regex_from_string s => σ ++ [mvg.regex.create_regex_from_string s]
  | .copy i =>
    match σ[i]? with
    | some c => σ ++ [c]
    | none => σ
  | .then_match i elem =>
    match σ[i]? with
    | some c => σ.set i (c.then_match elem)
    | none => σ

/-- A program: its actions in order, from a given store. -/
def chain_store.run (σ : chain_store) (actions : List chain_action) : chain_store :=
  actions.foldl chain_store.step σ

/-! ## The two variants side by side -/

/-- The wide code unit of the same value (code point) as a narrow code unit. -/
def widen (c : char) : wchar_t := ⟨c⟩

/-- A symbol table with every constant mapped. -/
def char_traits.map {α β : Type} (f : α → β) (t : char_traits α) : char_traits β :=
  { square_open := f t.square_open, square_close := f t.square_close,
    round_open := f t.round_open, round_close := f t.round_close,
    curly_open := f t.curly_open, curly_close := f t.curly_close,
    minus_sign := f t.minus_sign, plus := f t.plus, or_sign := f t.or_sign,
    power_sign := f t.power_sign, star := f t.star, comma := f t.comma,
    backslash := f t.backslash, forwardslash := f t.forwardslash,
    question_mark := f t.question_mark, colon := f t.colon,
    s := f t.s, w := f t.w, d := f t.d, S := f t.S, W := f t.W, D := f t.D }

/-- A narrow view, each code unit of its buffer widened. -/
def string_view.widen (v : string_view char) : string_view wchar_t :=
  { chars := v.chars.map mvg.regex.widen, after := v.after.map mvg.regex.widen }

/-- A narrow fragment, each character of its text widened. -/
def regex_element.widen (e : regex_element char) : regex_element wchar_t :=
  { str_ := e.str_.map mvg.regex.widen }

/-- A narrow chain, each character of its text widened. -/
def basic_regex_chain_holder.widen (c : basic_regex_chain_holder char) :
    basic_regex_chain_holder wchar_t :=
  { str_ := c.str_.map mvg.regex.widen }

/-- A narrow operand, widened. -/
def RegElement.widen : RegElement char → RegElement wchar_t
  | .element e => .element e.widen
  | .chain c => .chain c.widen

/-! ### Which operation bodies are well typed in which variant

The operations are member templates, instantiated when called. Whether the
body of one is well typed for a character type is decided by the overloads of
`operator+` on `std::basic_string` and by the conversions to
`std::basic_string_view` (C++ standard, sections string.op.plus and
string.view.cons), modelled here for the operand types that occur in the header.
-/

/-- The character type a variant is instantiated with: `char` or `wchar_t`. -/
inductive char_kind where
  | narrow
  | wide
deriving DecidableEq

/-- The types of the subexpressions of the operation bodies: a character, a
`std::basic_string`, a pointer to a zero-terminated array (`const CharT*`) and a
`std::basic_string_view`, each over one character type. -/
inductive operand_type where
  | character (k : char_kind)
  | string (k : char_kind)
  | c_string (k : char_kind)
  | view (k : char_kind)
deriving DecidableEq

/-- The type of `a + b`: `operator+` takes a `basic_string<CharT>` with a
`basic_string<CharT>`, a `CharT` or a `const CharT*`, on either side; `CharT` is
deduced from both operands, so their character types must agree. -/
def plus_type : operand_type → operand_type → Option operand_type
  | .string k, .string k2 => if k = k2 then some (.string k) else none
  | .string k, .character k2 => if k = k2 then some (.string k) else none
  | .character k, .string k2 => if k = k2 then some (.string k) else none
  | .string k, .c_string k2 => if k = k2 then some (.string k) else none
  | .c_string k, .string k2 => if k = k2 then some (.string k) else none
  | _, _ => none

/-- Whether a value of the type converts to `basic_string_view<CharT>`, the
parameter of the constructors of `regex_element` and `basic_regex_chain_holder`:
a view, a string or a zero-terminated array of the same character type does. -/
def converts_to_view (k : char_kind) : operand_type → Bool
  | .view k2 => decide (k = k2)
  | .string k2 => decide (k = k2)
  | .c_string k2 => decide (k = k2)
  | .character _ => false

/-- The expression handed to the constructor in an operation body. -/
inductive body_expr where
  | operand (t : operand_type)
  | plus (a b : body_expr)

/-- The type of a body expression, if it has one. -/
def body_expr.type : body_expr → Option operand_type
  | .operand t => some t
  | .plus a b =>
    match a.type, b.type with
    | some ta, some tb => plus_type ta tb
    | _, _ => none

/-- The operation set of a generator. -/
inductive operation where
  | match_range | match_or | match_any | match_character | match_string
  | match_space | match_alpha_char | match_digit
  | match_not_space | match_not_alpha_char | match_not_digit
  | match_any_of | match_none_of | match_escaped_char
  | match_zero_or_more | match_one_or_more | match_zero_or_one
  | match_n | match_n_or_more | match_group | capture_group
  | create_regex | create_regex_from_string
deriving DecidableEq

/-- The constructor argument in the body of each operation, for the variant over
the character type `k`: `S` is a `string_t` (`string_t{}`, `string_t(1, '.')` or an
operand's `str()`), `C` a `char_t` (a symbol-table constant or a character
parameter). `std::to_string(n)` is a `std::string` and `""` a narrow
zero-terminated array in every variant. -/
def operation.body (k : char_kind) : operation → body_expr :=
  let S := body_expr.operand (.string k)
  let C := body_expr.operand (.character k)
  fun op =>
    match op with
    | .match_range => .plus (.plus (.plus (.plus (.plus S C) C) C) C) C
    | .match_or => .plus (.plus S C) S
    | .match_any => S
    | .match_character => .plus S C
    | .match_string => .operand (.view k)
    | .match_space => .plus (.plus S C) C
    | .match_alpha_char => .plus (.plus S C) C
    | .match_digit => .plus (.plus S C) C
    | .match_not_space => .plus (.plus S C) C
    | .match_not_alpha_char => .plus (.plus S C) C
    | .match_not_digit => .plus (.plus S C) C
    | .match_any_of => .plus (.plus (.plus S C) (.operand (.c_string k))) C
    | .match_none_of => .plus (.plus (.plus (.plus S C) C) (.operand (.c_string k))) C
    | .match_escaped_char => .plus (.plus S C) C
    | .match_zero_or_more => .plus S C
    | .match_one_or_more => .plus S C
    | .match_zero_or_one => .plus S C
    | .match_n => .plus (.plus (.plus S C) (.operand (.string .narrow))) C
    | .match_n_or_more => .plus (.plus (.plus (.plus S C) (.operand (.string .narrow))) C) C
    | .match_group => .plus (.plus (.plus (.plus (.plus S C) C) C) S) C
    | .capture_group => .plus (.plus C S) C
    | .create_regex => .operand (.c_string .narrow)
    | .create_regex_from_string => .operand (.view k)

/-- The operation can be called in the variant over `k`: its body is well typed
and its value converts to the view the constructor takes. -/
def operation.available (k : char_kind) (op : operation) : Bool :=
  match (op.body k).type with
  | some t => converts_to_view k t
  | none => false

/-! ## Round brackets -/

/-- Round brackets balance in a text: every prefix has at least as many `(` as
`)`, and the totals are equal. -/
def balanced (s : List Nat) : Prop :=
  (∀ n, (s.take n).count 41 ≤ (s.take n).count 40) ∧ s.count 40 = s.count 41

/-- The text holds no round bracket. -/
def bracket_free (s : List Nat) : Prop := 40 ∉ s ∧ 41 ∉ s

/-- The fragments and chains of the narrow variant built from an empty chain and
the generator operations, where no literal character or string argument holds
a round bracket and where the views handed to `match_any_of` and
`match_none_of` are followed by a zero unit in their buffer (as the view of a
string literal or of a `std::string` is). -/
inductive BuiltBracketFree : RegElement char → Prop
  | create_regex : BuiltBracketFree (.chain create_regex)
  | then_match (c : basic_regex_chain_holder char) (f : regex_element char) :
      BuiltBracketFree (.chain c) → BuiltBracketFree (.element f) →
      BuiltBracketFree (.chain (c.then_match f))
  | match_range (a b : char) : bracket_free [a, b] →
      BuiltBracketFree (.element (match_range char_traits_char a b))
  | match_or (x y : RegElement char) : BuiltBracketFree x → BuiltBracketFree y →
      BuiltBracketFree (.element (match_or char_traits_char x y))
  | match_any : BuiltBracketFree (.element match_any)
  | match_character (c : char) : bracket_free [c] →
      BuiltBracketFree (.element (match_character c))
  | match_string (s : string_view char) : bracket_free s.chars →
      BuiltBracketFree (.element (match_string s))
  | match_space : BuiltBracketFree (.element (match_space char_traits_char))
  | match_alpha_char : BuiltBracketFree (.element (match_alpha_char char_traits_char))
  | match_digit : BuiltBracketFree (.element (match_digit char_traits_char))
  | match_not_space : BuiltBracketFree (.element (match_not_space char_traits_char))
  | match_not_alpha_char :
      BuiltBracketFree (.element (match_not_alpha_char char_traits_char))
  | match_not_digit : BuiltBracketFree (.element (match_not_digit char_traits_char))
  | match_any_of (chars : string_view char) (rest : List char) (e : regex_element char) :
      bracket_free chars.chars → chars.after = 0 :: rest →
      match_any_of char_traits_char chars = some e → BuiltBracketFree (.element e)
  | match_none_of (chars : string_view char) (rest : List char) (e : regex_element char) :
      bracket_free chars.chars → chars.after = 0 :: rest →
      match_none_of char_traits_char chars = some e → BuiltBracketFree (.element e)
  | match_escaped_char (c : char) : bracket_free [c] →
      BuiltBracketFree (.element (match_escaped_char char_traits_char c))
  | match_zero_or_more (x : RegElement char) : BuiltBracketFree x →
      BuiltBracketFree (.element (match_zero_or_more char_traits_char x))
  | match_one_or_more (x : RegElement char) : BuiltBracketFree x →
      BuiltBracketFree (.element (match_one_or_more char_traits_char x))
  | match_zero_or_one (x : RegElement char) : BuiltBracketFree x →
      BuiltBracketFree (.element (match_zero_or_one char_traits_char x))
  | match_n (x : RegElement char) (n : size_t) : BuiltBracketFree x →
      BuiltBracketFree (.element (match_n char_traits_char x n))
  | match_n_or_more (x : RegElement char) (n : size_t) : BuiltBracketFree x →
      BuiltBracketFree (.element (match_n_or_more char_traits_char x n))
  | match_group (e : regex_element char) : BuiltBracketFree (.element e) →
      BuiltBracketFree (.element (match_group char_traits_char e))
  | match_group_chain (c : basic_regex_chain_holder char) : BuiltBracketFree (.chain c) →
      BuiltBracketFree (.element (match_group_chain char_traits_char c))
  | capture_group (e : regex_element char) : BuiltBracketFree (.element e) →
      BuiltBracketFree (.element (capture_group char_traits_char e))
  | capture_group_chain (c : basic_regex_chain_holder char) : BuiltBracketFree (.chain c) →
      BuiltBracketFree (.element (capture_group_chain char_traits_char c))

/-! ## Values produced through the operations -/

/-- The code-unit values of a text of either character type. -/
def code_units {char_t : Type} [char_type char_t] (s : string_t char_t) : List Nat :=
  s.map char_type.code

/-- A variant as the two provided ones are: the constants of its symbol table
have the code points of `char_traits<char>`, and the conversion of a narrow
character literal to `char_t` keeps the value. -/
def standard_variant {char_t : Type} [char_type char_t] (traits : char_traits char_t) : Prop :=
  char_traits.map char_type.code traits = char_traits_char ∧
    ∀ c : char, char_type.code (char_type.of_char c : char_t) = c

/-- The fragments and chains of a variant that are produced solely through
`create_regex`, `create_regex_from_string`, `then_match` and the generator
operations, where every literal argument belongs to the grammar category it is
spliced in as (a pattern character, the character of an atom escape or of an
assertion, the bounds of a range, a seed or literal string that is a
self-contained pattern) and every quantifier is applied to an operand whose
text ends in an atom. `create_regex`, `match_n` and `match_n_or_more` are
operations of the narrow variant. `match_any_of` and `match_none_of` are left
out: what they yield depends on the storage behind their argument. -/
inductive Produced : {char_t : Type} → [char_type char_t] → char_traits char_t →
    RegElement char_t → Prop
  | create_regex : Produced char_traits_char (.chain create_regex)
  | create_regex_from_string {char_t : Type} [char_type char_t] (traits : char_traits char_t)
      (s : string_view char_t) : SelfContainedPattern (code_units s.chars) →
      Produced traits (.chain (create_regex_from_string s))
  | then_match {char_t : Type} [char_type char_t] (traits : char_traits char_t)
      (c : basic_regex_chain_holder char_t) (f : regex_element char_t) :
      Produced traits (.chain c) → Produced traits (.element f) →
      Produced traits (.chain (c.then_match f))
  | match_range {char_t : Type} [char_type char_t] (traits : char_traits char_t)
      (a b : char_t) :
      is_range_bounds [char_type.code a] [char_type.code b] = true →
      char_type.code a ≠ 92 → char_type.code a ≠ 93 →
      char_type.code b ≠ 92 → char_type.code b ≠ 93 →
      Produced traits (.element (match_range traits a b))
  | match_or {char_t : Type} [char_type char_t] (traits : char_traits char_t)
      (x y : RegElement char_t) : Produced traits x → Produced traits y →
      Produced traits (.element (match_or traits x y))
  | match_any {char_t : Type} [char_type char_t] (traits : char_traits char_t) :
      Produced traits (.element match_any)
  | match_character {char_t : Type} [char_type char_t] (traits : char_traits char_t)
      (c : char_t) : is_pattern_character (char_type.code c) = true →
      Produced traits (.element (match_character c))
  | match_string {char_t : Type} [char_type char_t] (traits : char_traits char_t)
      (s : string_view char_t) : SelfContainedPattern (code_units s.chars) →
      Produced traits (.element (match_string s))
  | match_space {char_t : Type} [char_type char_t] (traits : char_traits char_t) :
      Produced traits (.element (match_space traits))
  | match_alpha_char {char_t : Type} [char_type char_t] (traits : char_traits char_t) :
      Produced traits (.element (match_alpha_char traits))
  | match_digit {char_t : Type} [char_type char_t] (traits : char_traits char_t) :
      Produced traits (.element (match_digit traits))
  | match_not_space {char_t : Type} [char_type char_t] (traits : char_traits char_t) :
      Produced traits (.element (match_not_space traits))
  | match_not_alpha_char {char_t : Type} [char_type char_t] (traits : char_traits char_t) :
      Produced traits (.element (match_not_alpha_char traits))
  | match_not_digit {char_t : Type} [char_type char_t] (traits : char_traits char_t) :
      Produced traits (.element (match_not_digit traits))
  | match_escaped_char {char_t : Type} [char_type char_t] (traits : char_traits char_t)
      (c : char_t) :
      (∀ la, is_atom_escape [char_type.code c] la = true) ∨
        is_assertion [92, char_type.code c] = true →
      Produced traits (.element (match_escaped_char traits c))
  | match_zero_or_more {char_t : Type} [char_type char_t] (traits : char_traits char_t)
      (x : RegElement char_t) : Produced traits x → EndsInAtom (code_units x.str) →
      Produced traits (.element (match_zero_or_more traits x))
  | match_one_or_more {char_t : Type} [char_type char_t] (traits : char_traits char_t)
      (x : RegElement char_t) : Produced traits x → EndsInAtom (code_units x.str) →
      Produced traits (.element (match_one_or_more traits x))
  | match_zero_or_one {char_t : Type} [char_type char_t] (traits : char_traits char_t)
      (x : RegElement char_t) : Produced traits x → EndsInAtom (code_units x.str) →
      Produced traits (.element (match_zero_or_one traits x))
  | match_n (x : RegElement char) (n : size_t) : Produced char_traits_char x →
      EndsInAtom (code_units x.str) →
      Produced char_traits_char (.element (match_n char_traits_char x n))
  | match_n_or_more (x : RegElement char) (n : size_t) : Produced char_traits_char x →
      EndsInAtom (code_units x.str) →
      Produced char_traits_char (.element (match_n_or_more char_traits_char x n))
  | match_group {char_t : Type} [char_type char_t] (traits : char_traits char_t)
      (e : regex_element char_t) : Produced traits (.element e) →
      Produced traits (.element (match_group traits e))
  | match_group_chain {char_t : Type} [char_type char_t] (traits : char_traits char_t)
      (c : basic_regex_chain_holder char_t) : Produced traits (.chain c) →
      Produced traits (.element (match_group_chain traits c))
  | capture_group {char_t : Type} [char_type char_t] (traits : char_traits char_t)
      (e : regex_element char_t) : Produced traits (.element e) →
      Produced traits (.element (capture_group traits e))
  | capture_group_chain {char_t : Type} [char_type char_t] (traits : char_traits char_t)
      (c : basic_regex_chain_holder char_t) : Produced traits (.chain c) →
      Produced traits (.element (capture_group_chain traits c))

/-! ## Theorems -/

section basic_lemmas

variable {char_t : Type}

@[simp] theorem element_str_of_string [char_type char_t] (s : string_t char_t) :
    (regex_element.of_string s).str = s := rfl

@[simp] theorem element_str_ctor (v : string_view char_t) :
    (regex_element.ctor v).str = v.chars := rfl

@[simp] theorem chain_str_ctor (v : string_view char_t) :
    (basic_regex_chain_holder.ctor v).str = v.chars := rfl

@[simp] theorem chain_str_then_match (c : basic_regex_chain_holder char_t)
    (f : regex_element char_t) : (c.then_match f).str = c.str ++ f.str := rfl

@[simp] theorem create_regex_str : create_regex.str = [] := rfl

theorem chain_ext_str {c c' : basic_regex_chain_holder char_t}
    (h : c.str = c'.str) : c = c' := by
  cases c; cases c'; simpa [basic_regex_chain_holder.str] using h

theorem foldl_then_match_str (fs : List (regex_element char_t)) :
    ∀ c : basic_regex_chain_holder char_t,
      (fs.foldl basic_regex_chain_holder.then_match c).str
        = c.str ++ (fs.map regex_element.str).flatten := by
  induction fs with
  | nil => intro c; simp
  | cons f fs ih => intro c; simp [ih, List.append_assoc]

theorem decimal_value_reverse_digits (L : List Nat) (hL : ∀ d ∈ L, d < 10) :
    decimal_value (L.reverse.map (fun d : Nat => (48 + d : Nat))) = Nat.ofDigits 10 L := by
  induction L with
  | nil => simp [decimal_value]
  | cons d L ih =>
    have ih2 := ih (fun x hx => hL x (List.mem_cons_of_mem _ hx))
    unfold decimal_value at ih2 ⊢
    simp only [List.reverse_cons, List.map_append, List.foldl_append, List.map_cons,
      List.map_nil, List.foldl_cons, List.foldl_nil, Nat.ofDigits_cons]
    rw [ih2]
    omega

theorem to_string_is_decimal_numeral (n : Nat) : is_decimal_numeral (to_string n) n := by
  unfold to_string
  by_cases hn : n = 0
  · subst hn
    simp [is_decimal_numeral, decimal_value]
  · have hne : Nat.digits 10 n ≠ [] := Nat.digits_ne_nil_iff_ne_zero.mpr hn
    have hlt : ∀ d ∈ Nat.digits 10 n, d < 10 := fun d hd => Nat.digits_lt_base (by norm_num) hd
    rw [if_neg hn]
    refine ⟨by simpa using hne, ?_, ?_, ?_⟩
    · intro c hc
      simp only [List.mem_map, List.mem_reverse] at hc
      obtain ⟨d, hd, rfl⟩ := hc
      have := hlt d hd
      omega
    · intro hhead
      exfalso
      have hlast := Nat.getLast_digit_ne_zero 10 hn
      have hrev : (Nat.digits 10 n).reverse.head? = some ((Nat.digits 10 n).getLast hne) := by
        rw [List.head?_reverse, List.getLast?_eq_getLast _ hne]
      rw [List.head?_map, hrev] at hhead
      simp only [Option.map_some', Option.some.injEq] at hhead
      have h2 : (48 : Nat) + (Nat.digits 10 n).getLast hne = 48 := hhead
      omega
    · rw [decimal_value_reverse_digits _ hlt, Nat.ofDigits_digits]

end basic_lemmas

/-! ## Facts about the grammar -/

theorem quantifier_prefix_head (q : List Nat) (h : QuantifierPrefix q) :
    q.head? = some 42 ∨ q.head? = some 43 ∨ q.head? = some 63 ∨ q.head? = some 123 := by
  cases h <;> simp

theorem quantifier_head (q : List Nat) (h : Quantifier q) :
    q.head? = some 42 ∨ q.head? = some 43 ∨ q.head? = some 63 ∨ q.head? = some 123 := by
  cases h with
  | greedy _ hq => exact quantifier_prefix_head _ hq
  | non_greedy q0 hq =>
    have := quantifier_prefix_head _ hq
    cases q0 with
    | nil => simp at this
    | cons x xs => simpa using this

theorem character_class_head (cc : List Nat) (h : CharacterClass cc) : cc.head? = some 91 := by
  cases h <;> rfl

theorem assertion_cases (t : List Nat) (h : is_assertion t = true) :
    t = [94] ∨ t = [36] ∨ t = [92, 98] ∨ t = [92, 66] := by
  simpa [is_assertion, or_assoc] using h

/-- A term or an atom is never the empty text. -/
theorem derives_term_ne_nil {nt : Nonterminal} {s : List Nat} {la : Option Nat}
    (h : Derives nt s la) : nt = .Term ∨ nt = .Atom → s ≠ [] := by
  induction h with
  | disjunction_alternative _ _ _ _ => intro hnt; simp at hnt
  | disjunction_bar _ _ _ _ _ _ _ => intro hnt; simp at hnt
  | alternative_empty _ => intro hnt; simp at hnt
  | alternative_term _ _ _ _ _ _ _ => intro hnt; simp at hnt
  | term_assertion t _ ht =>
    intro _
    rcases assertion_cases t ht with h | h | h | h <;> simp [h]
  | term_atom _ _ _ ih => intro _; exact ih (Or.inr rfl)
  | term_quantified a q _ _ _ ih =>
    intro _ hnil
    exact ih (Or.inr rfl) (List.append_eq_nil.mp hnil).1
  | atom_character _ _ _ => intro _; simp
  | atom_dot _ => intro _; simp
  | atom_escape _ _ _ => intro _; simp
  | atom_class cc _ hcc =>
    intro _ hnil
    have := character_class_head cc hcc
    simp [hnil] at this
  | atom_group _ _ _ _ => intro _; simp
  | atom_non_capturing _ _ _ _ => intro _; simp
  | term_lookahead _ _ _ _ => intro _; simp
  | term_negative_lookahead _ _ _ _ => intro _; simp

/-- No text derived from any nonterminal begins with a quantifier character or
with a closing bracket. -/
theorem derives_head_can_begin {nt : Nonterminal} {s : List Nat} {la : Option Nat}
    (h : Derives nt s la) : ∀ c, s.head? = some c → cannot_begin c = false := by
  induction h with
  | disjunction_alternative _ _ _ ih => exact ih
  | disjunction_bar a d _ _ _ iha _ =>
    intro c hc
    cases a with
    | nil =>
      simp at hc
      subst hc
      rfl
    | cons x xs => exact iha c (by simpa using hc)
  | alternative_empty _ => intro c hc; simp at hc
  | alternative_term a t _ _ _ iha iht =>
    intro c hc
    cases a with
    | nil => exact iht c (by simpa using hc)
    | cons x xs => exact iha c (by simpa using hc)
  | term_assertion t _ ht =>
    intro c hc
    rcases assertion_cases t ht with h | h | h | h <;> subst h <;> simp at hc <;> subst hc <;> rfl
  | term_atom _ _ _ ih => exact ih
  | term_quantified a q _ ha _ ih =>
    intro c hc
    cases a with
    | nil => exact absurd rfl (derives_term_ne_nil ha (Or.inr rfl))
    | cons x xs => exact ih c (by simpa using hc)
  | atom_character c0 _ hc0 =>
    intro c hc
    simp at hc
    subst hc
    simp [is_pattern_character] at hc0
    simp [cannot_begin, hc0]
  | atom_dot _ => intro c hc; simp at hc; subst hc; rfl
  | atom_escape _ _ _ => intro c hc; simp at hc; subst hc; rfl
  | atom_class cc _ hcc =>
    intro c hc
    rw [character_class_head cc hcc] at hc
    simp at hc
    subst hc
    rfl
  | atom_group _ _ _ _ => intro c hc; simp at hc; subst hc; rfl
  | atom_non_capturing _ _ _ _ => intro c hc; simp at hc; subst hc; rfl
  | term_lookahead _ _ _ _ => intro c hc; simp at hc; subst hc; rfl
  | term_negative_lookahead _ _ _ _ => intro c hc; simp at hc; subst hc; rfl

theorem head_append_or (a t : List Nat) (la : Option Nat) (ht : t ≠ []) :
    (a ++ t).head?.or la = a.head?.or t.head? := by
  cases a with
  | nil =>
    cases t with
    | nil => exact absurd rfl ht
    | cons x xs => simp
  | cons x xs => simp

/-- An alternative followed by an alternative is an alternative. -/
theorem alternative_append {nt : Nonterminal} {b : List Nat} {la : Option Nat}
    (hb : Derives nt b la) : nt = .Alternative →
      ∀ a, Derives .Alternative a (b.head?.or la) → Derives .Alternative (a ++ b) la := by
  induction hb with
  | disjunction_alternative _ _ _ _ => intro hnt; simp at hnt
  | disjunction_bar _ _ _ _ _ _ _ => intro hnt; simp at hnt
  | alternative_empty la0 =>
    intro _ a ha
    simpa using ha
  | alternative_term b0 t la0 _ ht ihb _ =>
    intro _ a ha
    have hne : t ≠ [] := derives_term_ne_nil ht (Or.inl rfl)
    rw [head_append_or b0 t la0 hne] at ha
    have h1 := ihb rfl a ha
    have h2 := Derives.alternative_term (a ++ b0) t la0 h1 ht
    simpa [List.append_assoc] using h2
  | term_assertion _ _ _ => intro hnt; simp at hnt
  | term_atom _ _ _ _ => intro hnt; simp at hnt
  | term_quantified _ _ _ _ _ _ => intro hnt; simp at hnt
  | atom_character _ _ _ => intro hnt; simp at hnt
  | atom_dot _ => intro hnt; simp at hnt
  | atom_escape _ _ _ => intro hnt; simp at hnt
  | atom_class _ _ _ => intro hnt; simp at hnt
  | atom_group _ _ _ _ => intro hnt; simp at hnt
  | atom_non_capturing _ _ _ _ => intro hnt; simp at hnt
  | term_lookahead _ _ _ _ => intro hnt; simp at hnt
  | term_negative_lookahead _ _ _ _ => intro hnt; simp at hnt

/-- An alternative followed by a disjunction is a disjunction. -/
theorem alternative_append_disjunction {nt : Nonterminal} {y : List Nat} {la : Option Nat}
    (hy : Derives nt y la) : nt = .Disjunction →
      ∀ a, Derives .Alternative a (y.head?.or la) → Derives .Disjunction (a ++ y) la := by
  induction hy with
  | disjunction_alternative b la0 hb _ =>
    intro _ a ha
    exact Derives.disjunction_alternative _ _ (alternative_append hb rfl a ha)
  | disjunction_bar b d la0 hb hd _ _ =>
    intro _ a ha
    have hh : (b ++ 124 :: d).head?.or la0 = b.head?.or (some 124) :=
      head_append_or b (124 :: d) la0 (by simp)
    rw [hh] at ha
    have h1 : Derives .Alternative (a ++ b) (some 124) :=
      alternative_append hb rfl a (by simpa using ha)
    have h2 := Derives.disjunction_bar (a ++ b) d la0 h1 hd
    simpa [List.append_assoc] using h2
  | alternative_empty _ => intro hnt; simp at hnt
  | alternative_term _ _ _ _ _ _ _ => intro hnt; simp at hnt
  | term_assertion _ _ _ => intro hnt; simp at hnt
  | term_atom _ _ _ _ => intro hnt; simp at hnt
  | term_quantified _ _ _ _ _ _ => intro hnt; simp at hnt
  | atom_character _ _ _ => intro hnt; simp at hnt
  | atom_dot _ => intro hnt; simp at hnt
  | atom_escape _ _ _ => intro hnt; simp at hnt
  | atom_class _ _ _ => intro hnt; simp at hnt
  | atom_group _ _ _ _ => intro hnt; simp at hnt
  | atom_non_capturing _ _ _ _ => intro hnt; simp at hnt
  | term_lookahead _ _ _ _ => intro hnt; simp at hnt
  | term_negative_lookahead _ _ _ _ => intro hnt; simp at hnt

/-- A disjunction followed by a disjunction is a disjunction: the last
alternative of the first and the first alternative of the second merge. -/
theorem disjunction_append {nt : Nonterminal} {x : List Nat} {lx : Option Nat}
    (hx : Derives nt x lx) : nt = .Disjunction →
      ∀ (y : List Nat) (la : Option Nat), lx = y.head?.or la → Derives .Disjunction y la →
        Derives .Disjunction (x ++ y) la := by
  induction hx with
  | disjunction_alternative a la0 ha _ =>
    intro _ y la hla hy
    subst hla
    exact alternative_append_disjunction hy rfl a ha
  | disjunction_bar a d la0 ha _ _ ihd =>
    intro _ y la hla hy
    have h1 := ihd rfl y la hla hy
    have h2 := Derives.disjunction_bar a (d ++ y) la ha h1
    simpa [List.append_assoc] using h2
  | alternative_empty _ => intro hnt; simp at hnt
  | alternative_term _ _ _ _ _ _ _ => intro hnt; simp at hnt
  | term_assertion _ _ _ => intro hnt; simp at hnt
  | term_atom _ _ _ _ => intro hnt; simp at hnt
  | term_quantified _ _ _ _ _ _ => intro hnt; simp at hnt
  | atom_character _ _ _ => intro hnt; simp at hnt
  | atom_dot _ => intro hnt; simp at hnt
  | atom_escape _ _ _ => intro hnt; simp at hnt
  | atom_class _ _ _ => intro hnt; simp at hnt
  | atom_group _ _ _ _ => intro hnt; simp at hnt
  | atom_non_capturing _ _ _ _ => intro hnt; simp at hnt
  | term_lookahead _ _ _ _ => intro hnt; simp at hnt
  | term_negative_lookahead _ _ _ _ => intro hnt; simp at hnt

/-- A disjunction, a bar, a disjunction: a disjunction. -/
theorem disjunction_bar_disjunction {nt : Nonterminal} {x : List Nat} {lx : Option Nat}
    (hx : Derives nt x lx) : nt = .Disjunction → lx = some 124 →
      ∀ (y : List Nat) (la : Option Nat), Derives .Disjunction y la →
        Derives .Disjunction (x ++ 124 :: y) la := by
  induction hx with
  | disjunction_alternative a la0 ha _ =>
    intro _ hla y la hy
    subst hla
    exact Derives.disjunction_bar a y la ha hy
  | disjunction_bar a d la0 ha _ _ ihd =>
    intro _ hla y la hy
    have h1 := ihd rfl hla y la hy
    have h2 := Derives.disjunction_bar a (d ++ 124 :: y) la ha h1
    simpa [List.append_assoc] using h2
  | alternative_empty _ => intro hnt; simp at hnt
  | alternative_term _ _ _ _ _ _ _ => intro hnt; simp at hnt
  | term_assertion _ _ _ => intro hnt; simp at hnt
  | term_atom _ _ _ _ => intro hnt; simp at hnt
  | term_quantified _ _ _ _ _ _ => intro hnt; simp at hnt
  | atom_character _ _ _ => intro hnt; simp at hnt
  | atom_dot _ => intro hnt; simp at hnt
  | atom_escape _ _ _ => intro hnt; simp at hnt
  | atom_class _ _ _ => intro hnt; simp at hnt
  | atom_group _ _ _ _ => intro hnt; simp at hnt
  | atom_non_capturing _ _ _ _ => intro hnt; simp at hnt
  | term_lookahead _ _ _ _ => intro hnt; simp at hnt
  | term_negative_lookahead _ _ _ _ => intro hnt; simp at hnt

/-- A term alone is a pattern. -/
theorem term_is_disjunction {t : List Nat} {la : Option Nat} (h : Derives .Term t la) :
    Derives .Disjunction t la := by
  have h1 := Derives.alternative_term [] t la (Derives.alternative_empty _) h
  exact Derives.disjunction_alternative _ _ (by simpa using h1)

theorem self_contained_of_single_atom {s : List Nat} (h : SingleAtom s) :
    SelfContainedPattern s :=
  fun la => term_is_disjunction (Derives.term_atom _ _ (h la))

theorem self_contained_append {x y : List Nat} (hx : SelfContainedPattern x)
    (hy : SelfContainedPattern y) : SelfContainedPattern (x ++ y) :=
  fun la => disjunction_append (hx _) rfl y la rfl (hy la)

theorem self_contained_bar {x y : List Nat} (hx : SelfContainedPattern x)
    (hy : SelfContainedPattern y) : SelfContainedPattern (x ++ 124 :: y) :=
  fun la => disjunction_bar_disjunction (hx _) rfl rfl y la (hy la)

theorem self_contained_nil : SelfContainedPattern [] :=
  fun la => Derives.disjunction_alternative _ _ (Derives.alternative_empty la)

theorem single_atom_quantified {s q : List Nat} (hs : SingleAtom s) (hq : Quantifier q) :
    ∀ la, Derives .Term (s ++ q) la :=
  fun la => Derives.term_quantified s q la (hs _) hq

/-! ## Atoms and terms the operations produce -/

theorem class_atom_of_character (c : Nat) (la : Option Nat) (h1 : c ≠ 92) (h2 : c ≠ 93)
    (hla : c = 91 → no_name_ahead la = true) : ClassAtom [c] la := by
  by_cases h : c = 45
  · subst h
    exact ClassAtom.dash la
  · exact ClassAtom.no_dash _ _ (ClassAtomNoDash.character c la h1 h2 h hla)

theorem range_is_single_atom (a b : Nat) (hab : is_range_bounds [a] [b] = true)
    (ha1 : a ≠ 92) (ha2 : a ≠ 93) (hb1 : b ≠ 92) (hb2 : b ≠ 93) :
    SingleAtom [91, a, 45, b, 93] := by
  intro la
  apply Derives.atom_class
  by_cases h : a = 94
  · subst h
    have h1 : ClassDerives .NonemptyClassRanges ([45] ++ [b]) (some 93) :=
      ClassDerives.atom_then [45] [b] (some 93) (ClassAtom.dash _)
        (ClassDerives.no_dash_atom [b] (some 93)
          (class_atom_of_character b _ hb1 hb2 (fun _ => rfl)))
    exact CharacterClass.negative [45, b] (ClassDerives.ranges_nonempty _ _ h1)
  · have h1 : ClassDerives .NonemptyClassRanges ([a] ++ 45 :: [b] ++ []) (some 93) :=
      ClassDerives.range [a] [b] [] (some 93)
        (class_atom_of_character a _ ha1 ha2 (fun _ => rfl))
        (class_atom_of_character b _ hb1 hb2 (fun _ => rfl)) hab
        (ClassDerives.ranges_empty _)
    have h2 := CharacterClass.positive [a, 45, b]
      (ClassDerives.ranges_nonempty _ _ (by simpa using h1)) (by simpa using h)
    simpa using h2

theorem group_is_single_atom {d : List Nat} (h : SelfContainedPattern d) :
    SingleAtom (40 :: d ++ [41]) :=
  fun la => Derives.atom_group d la (h _)

theorem non_capturing_group_is_single_atom {d : List Nat} (h : SelfContainedPattern d) :
    SingleAtom (40 :: 63 :: 58 :: d ++ [41]) :=
  fun la => Derives.atom_non_capturing d la (h _)

theorem escape_is_single_atom {c : Nat} (h : ∀ la, is_atom_escape [c] la = true) :
    SingleAtom [92, c] :=
  fun la => Derives.atom_escape [c] la (h la)

theorem class_shorthand_is_atom_escape (c : Nat)
    (h : is_character_class_escape [c] = true) : ∀ la, is_atom_escape [c] la = true := by
  intro la
  simp [is_atom_escape, h]

theorem to_string_is_decimal_digits (n : Nat) : is_decimal_digits (to_string n) = true := by
  obtain ⟨hne, hdig, _, _⟩ := to_string_is_decimal_numeral n
  simp only [is_decimal_digits, Bool.and_eq_true, Bool.not_eq_true', List.isEmpty_eq_false,
    List.all_eq_true]
  refine ⟨hne, fun c hc => ?_⟩
  have := hdig c hc
  simp [is_decimal_digit, this.1, this.2]

theorem ends_in_atom_quantified {s q : List Nat} (hs : EndsInAtom s) (hq : Quantifier q) :
    SelfContainedPattern (s ++ q) := by
  obtain ⟨p, a, rfl, hp, ha⟩ := hs
  have ht : SelfContainedPattern (a ++ q) :=
    fun la => term_is_disjunction (single_atom_quantified ha hq la)
  simpa [List.append_assoc] using self_contained_append hp ht

theorem ends_in_atom_of_single_atom {s : List Nat} (h : SingleAtom s) : EndsInAtom s :=
  ⟨[], s, rfl, self_contained_nil, h⟩

theorem assertion_is_self_contained {t : List Nat} (h : is_assertion t = true) :
    SelfContainedPattern t :=
  fun la => term_is_disjunction (Derives.term_assertion t la h)

/-! ## The text of each operation, in code units -/

section units

variable {char_t : Type} [char_type char_t]

@[simp] theorem code_units_nil : code_units ([] : string_t char_t) = [] := rfl

@[simp] theorem code_units_cons (c : char_t) (s : string_t char_t) :
    code_units (c :: s) = char_type.code c :: code_units s := rfl

@[simp] theorem code_units_append (s t : string_t char_t) :
    code_units (s ++ t) = code_units s ++ code_units t := by
  simp [code_units]

theorem code_narrow (c : char) : char_type.code c = c := rfl

theorem code_units_narrow (s : string_t char) : code_units s = s := by
  induction s with
  | nil => rfl
  | cons c cs ih =>
    rw [code_units_cons, ih]
    rfl

theorem standard_variant_narrow : standard_variant char_traits_char :=
  ⟨rfl, fun _ => rfl⟩

theorem standard_variant_wide : standard_variant char_traits_wchar_t :=
  ⟨rfl, fun _ => rfl⟩

theorem standard_variant_codes (traits : char_traits char_t) (h : standard_variant traits) :
    char_type.code traits.square_open = 91 ∧ char_type.code traits.square_close = 93 ∧
    char_type.code traits.round_open = 40 ∧ char_type.code traits.round_close = 41 ∧
    char_type.code traits.curly_open = 123 ∧ char_type.code traits.curly_close = 125 ∧
    char_type.code traits.minus_sign = 45 ∧ char_type.code traits.plus = 43 ∧
    char_type.code traits.or_sign = 124 ∧ char_type.code traits.power_sign = 94 ∧
    char_type.code traits.star = 42 ∧ char_type.code traits.comma = 44 ∧
    char_type.code traits.backslash = 92 ∧ char_type.code traits.question_mark = 63 ∧
    char_type.code traits.colon = 58 ∧ char_type.code traits.s = 115 ∧
    char_type.code traits.w = 119 ∧ char_type.code traits.d = 100 ∧
    char_type.code traits.S = 83 ∧ char_type.code traits.W = 87 ∧
    char_type.code traits.D = 68 :=
  have h1 := h.1
  ⟨congrArg char_traits.square_open h1, congrArg char_traits.square_close h1,
    congrArg char_traits.round_open h1, congrArg char_traits.round_close h1,
    congrArg char_traits.curly_open h1, congrArg char_traits.curly_close h1,
    congrArg char_traits.minus_sign h1, congrArg char_traits.plus h1,
    congrArg char_traits.or_sign h1, congrArg char_traits.power_sign h1,
    congrArg char_traits.star h1, congrArg char_traits.comma h1,
    congrArg char_traits.backslash h1, congrArg char_traits.question_mark h1,
    congrArg char_traits.colon h1, congrArg char_traits.s h1, congrArg char_traits.w h1,
    congrArg char_traits.d h1, congrArg char_traits.S h1, congrArg char_traits.W h1,
    congrArg char_traits.D h1⟩

theorem units_match_range (traits : char_traits char_t) (h : standard_variant traits)
    (a b : char_t) :
    code_units (match_range traits a b).str
      = [91, char_type.code a, 45, char_type.code b, 93] := by
  obtain ⟨h1, h2, -, -, -, -, h7, -⟩ := standard_variant_codes traits h
  simp [match_range, h1, h2, h7]

theorem units_match_or (traits : char_traits char_t) (h : standard_variant traits)
    (x y : RegElement char_t) :
    code_units (match_or traits x y).str = code_units x.str ++ 124 :: code_units y.str := by
  obtain ⟨-, -, -, -, -, -, -, -, h9, -⟩ := standard_variant_codes traits h
  simp [match_or, h9]

theorem units_match_any (traits : char_traits char_t) (h : standard_variant traits) :
    code_units (match_any : regex_element char_t).str = [46] := by
  simp [match_any, h.2]

theorem units_match_character (c : char_t) :
    code_units (match_character c).str = [char_type.code c] := by
  simp [match_character]

theorem units_match_escaped_char (traits : char_traits char_t) (h : standard_variant traits)
    (c : char_t) :
    code_units (match_escaped_char traits c).str = [92, char_type.code c] := by
  obtain ⟨-, -, -, -, -, -, -, -, -, -, -, -, h13, -⟩ := standard_variant_codes traits h
  simp [match_escaped_char, h13]

theorem units_shorthands (traits : char_traits char_t) (h : standard_variant traits) :
    code_units (match_space traits).str = [92, 115] ∧
    code_units (match_alpha_char traits).str = [92, 119] ∧
    code_units (match_digit traits).str = [92, 100] ∧
    code_units (match_not_space traits).str = [92, 83] ∧
    code_units (match_not_alpha_char traits).str = [92, 87] ∧
    code_units (match_not_digit traits).str = [92, 68] := by
  obtain ⟨-, -, -, -, -, -, -, -, -, -, -, -, h13, -, -, h16, h17, h18, h19, h20, h21⟩ :=
    standard_variant_codes traits h
  simp [match_space, match_alpha_char, match_digit, match_not_space, match_not_alpha_char,
    match_not_digit, h13, h16, h17, h18, h19, h20, h21]

theorem units_quantifiers (traits : char_traits char_t) (h : standard_variant traits)
    (x : RegElement char_t) :
    code_units (match_zero_or_more traits x).str = code_units x.str ++ [42] ∧
    code_units (match_one_or_more traits x).str = code_units x.str ++ [43] ∧
    code_units (match_zero_or_one traits x).str = code_units x.str ++ [63] := by
  obtain ⟨-, -, -, -, -, -, -, h8, -, -, h11, -, -, h14, -⟩ := standard_variant_codes traits h
  simp [match_zero_or_more, match_one_or_more, match_zero_or_one, h8, h11, h14]

theorem units_counts (x : RegElement char) (n : size_t) :
    code_units (match_n char_traits_char x n).str
      = code_units x.str ++ (123 :: to_string n ++ [125]) ∧
    code_units (match_n_or_more char_traits_char x n).str
      = code_units x.str ++ (123 :: to_string n ++ [44, 125]) := by
  simp [match_n, match_n_or_more, code_units_narrow, char_traits_char, code_narrow]

theorem units_groups (traits : char_traits char_t) (h : standard_variant traits)
    (e : regex_element char_t) (c : basic_regex_chain_holder char_t) :
    code_units (match_group traits e).str = 40 :: 63 :: 58 :: code_units e.str ++ [41] ∧
    code_units (match_group_chain traits c).str
      = 40 :: 63 :: 58 :: code_units c.str ++ [41] ∧
    code_units (capture_group traits e).str = 40 :: code_units e.str ++ [41] ∧
    code_units (capture_group_chain traits c).str = 40 :: code_units c.str ++ [41] := by
  obtain ⟨-, -, h3, h4, -, -, -, -, -, -, -, -, -, h14, h15, -⟩ :=
    standard_variant_codes traits h
  simp [match_group, match_group_chain, capture_group, capture_group_chain, h3, h4, h14, h15]

end units

/-- Every produced fragment or chain of a standard variant holds a self-contained
pattern. -/
theorem produced_is_self_contained {char_t : Type} [char_type char_t]
    {traits : char_traits char_t} {x : RegElement char_t} (h : Produced traits x) :
    standard_variant traits → SelfContainedPattern (code_units x.str) := by
  induction h with
  | create_regex => exact fun _ => self_contained_nil
  | create_regex_from_string traits s hs => exact fun _ => hs
  | then_match traits c f _ _ ihc ihf =>
    intro h
    have := self_contained_append (ihc h) (ihf h)
    simpa [RegElement.str] using this
  | match_range traits a b hab ha1 ha2 hb1 hb2 =>
    intro h
    have := self_contained_of_single_atom (range_is_single_atom _ _ hab ha1 ha2 hb1 hb2)
    simpa [RegElement.str, units_match_range traits h] using this
  | match_or traits x y _ _ ihx ihy =>
    intro h
    have := self_contained_bar (ihx h) (ihy h)
    simpa [RegElement.str, units_match_or traits h] using this
  | match_any traits =>
    intro h
    have := self_contained_of_single_atom (fun la => Derives.atom_dot la)
    simpa [RegElement.str, units_match_any traits h] using this
  | match_character traits c hc =>
    intro _
    have := self_contained_of_single_atom (fun la => Derives.atom_character _ la hc)
    simpa [RegElement.str, units_match_character] using this
  | match_string traits s hs => exact fun _ => hs
  | match_space traits =>
    intro h
    have := self_contained_of_single_atom
      (escape_is_single_atom (class_shorthand_is_atom_escape 115 rfl))
    simpa [RegElement.str, (units_shorthands traits h).1] using this
  | match_alpha_char traits =>
    intro h
    have := self_contained_of_single_atom
      (escape_is_single_atom (class_shorthand_is_atom_escape 119 rfl))
    simpa [RegElement.str, (units_shorthands traits h).2.1] using this
  | match_digit traits =>
    intro h
    have := self_contained_of_single_atom
      (escape_is_single_atom (class_shorthand_is_atom_escape 100 rfl))
    simpa [RegElement.str, (units_shorthands traits h).2.2.1] using this
  | match_not_space traits =>
    intro h
    have := self_contained_of_single_atom
      (escape_is_single_atom (class_shorthand_is_atom_escape 83 rfl))
    simpa [RegElement.str, (units_shorthands traits h).2.2.2.1] using this
  | match_not_alpha_char traits =>
    intro h
    have := self_contained_of_single_atom
      (escape_is_single_atom (class_shorthand_is_atom_escape 87 rfl))
    simpa [RegElement.str, (units_shorthands traits h).2.2.2.2.1] using this
  | match_not_digit traits =>
    intro h
    have := self_contained_of_single_atom
      (escape_is_single_atom (class_shorthand_is_atom_escape 68 rfl))
    simpa [RegElement.str, (units_shorthands traits h).2.2.2.2.2] using this
  | match_escaped_char traits c hc =>
    intro h
    rcases hc with hc | hc
    · have := self_contained_of_single_atom (escape_is_single_atom hc)
      simpa [RegElement.str, units_match_escaped_char traits h] using this
    · have := assertion_is_self_contained hc
      simpa [RegElement.str, units_match_escaped_char traits h] using this
  | match_zero_or_more traits x _ hx _ =>
    intro h
    have := ends_in_atom_quantified hx (Quantifier.greedy _ QuantifierPrefix.star)
    simpa [RegElement.str, (units_quantifiers traits h x).1] using this
  | match_one_or_more traits x _ hx _ =>
    intro h
    have := ends_in_atom_quantified hx (Quantifier.greedy _ QuantifierPrefix.plus)
    simpa [RegElement.str, (units_quantifiers traits h x).2.1] using this
  | match_zero_or_one traits x _ hx _ =>
    intro h
    have := ends_in_atom_quantified hx (Quantifier.greedy _ QuantifierPrefix.question)
    simpa [RegElement.str, (units_quantifiers traits h x).2.2] using this
  | match_n x n _ hx _ =>
    intro _
    have := ends_in_atom_quantified hx
      (Quantifier.greedy _ (QuantifierPrefix.exactly _ (to_string_is_decimal_digits n)))
    simpa [RegElement.str, (units_counts x n).1] using this
  | match_n_or_more x n _ hx _ =>
    intro _
    have := ends_in_atom_quantified hx
      (Quantifier.greedy _ (QuantifierPrefix.at_least _ (to_string_is_decimal_digits n)))
    simpa [RegElement.str, (units_counts x n).2] using this
  | match_group traits e _ ih =>
    intro h
    have := self_contained_of_single_atom (non_capturing_group_is_single_atom (ih h))
    simpa [RegElement.str, (units_groups traits h e ⟨[]⟩).1] using this
  | match_group_chain traits c _ ih =>
    intro h
    have := self_contained_of_single_atom (non_capturing_group_is_single_atom (ih h))
    simpa [RegElement.str, (units_groups traits h ⟨[]⟩ c).2.1] using this
  | capture_group traits e _ ih =>
    intro h
    have := self_contained_of_single_atom (group_is_single_atom (ih h))
    simpa [RegElement.str, (units_groups traits h e ⟨[]⟩).2.2.1] using this
  | capture_group_chain traits c _ ih =>
    intro h
    have := self_contained_of_single_atom (group_is_single_atom (ih h))
    simpa [RegElement.str, (units_groups traits h ⟨[]⟩ c).2.2.2] using this

theorem atom_backslash_inversion {s : List Nat} {la : Option Nat} (h : Derives .Atom s la)
    (hs : s.head? = some 92) : ∃ e, s = 92 :: e ∧ is_atom_escape e la = true := by
  cases h with
  | atom_character c _ hc =>
    simp at hs
    subst hs
    simp [is_pattern_character] at hc
  | atom_dot _ => simp at hs
  | atom_escape e _ he => exact ⟨e, rfl, he⟩
  | atom_class _ _ hcc =>
    rw [character_class_head _ hcc] at hs
    simp at hs
  | atom_group _ _ _ => simp at hs
  | atom_non_capturing _ _ _ => simp at hs

/-! ## Texts the grammar leaves out -/

/-- Inside brackets, a `[` before a colon is no class atom: it opens a named atom. -/
theorem bracket_before_colon_is_no_class_atom : ¬ ClassAtom [91] (some 58) := by
  intro h
  generalize hs : ([91] : List Nat) = s at h
  generalize hl : (some 58 : Option Nat) = la at h
  cases h with
  | dash _ => simp at hs
  | no_dash _ _ hn =>
    cases hn with
    | character c _ _ _ _ hla =>
      subst hl
      have hc : c = 91 := (List.cons.inj hs).1.symm
      have := hla hc
      simp [no_name_ahead] at this
    | escape _ _ _ => simp at hs
  | ex_class name _ _ => simp at hs

/-- A backslash and one character are an atom only when the character is an atom
escape; `\b` (an assertion), a lone `\x` and a lone `\c` are no atoms. -/
theorem escape_atom_inversion (c : Nat) (la : Option Nat) (h : Derives .Atom [92, c] la) :
    is_atom_escape [c] la = true ∧ c ≠ 98 ∧ c ≠ 66 ∧ c ≠ 120 ∧ c ≠ 117 ∧ c ≠ 99 := by
  obtain ⟨e, he, hesc⟩ := atom_backslash_inversion h rfl
  obtain rfl : e = [c] := (List.cons.inj he).2.symm
  refine ⟨hesc, ?_, ?_, ?_, ?_, ?_⟩ <;>
  · rintro rfl
    simp [is_atom_escape, is_decimal_escape, is_character_escape, is_character_class_escape,
      is_identifier_part, is_control_letter, is_decimal_digit] at hesc

/-- A quantifier applies to an atom, not to an assertion: `\b*` is no term. -/
theorem quantified_word_boundary_is_no_term (la : Option Nat) :
    ¬ Derives .Term [92, 98, 42] la := by
  intro h
  generalize hs : ([92, 98, 42] : List Nat) = s at h
  cases h with
  | term_assertion _ _ ha =>
    subst hs
    simp [is_assertion] at ha
  | term_lookahead d _ _ => simp at hs
  | term_negative_lookahead d _ _ => simp at hs
  | term_atom _ _ hatom =>
    subst hs
    obtain ⟨e, he, hesc⟩ := atom_backslash_inversion hatom rfl
    obtain rfl : e = [98, 42] := (List.cons.inj he).2.symm
    simp [is_atom_escape, is_decimal_escape, is_character_escape,
      is_character_class_escape] at hesc
  | term_quantified a q _ hatom hq =>
    have hq0 : q ≠ [] := by
      rintro rfl
      have := quantifier_head _ hq
      simp at this
    cases a with
    | nil => exact derives_term_ne_nil hatom (Or.inr rfl) rfl
    | cons x e =>
      have hx : x = 92 := (List.cons.inj hs).1.symm
      subst hx
      obtain ⟨e2, he2, hesc⟩ := atom_backslash_inversion hatom rfl
      have he : e = e2 := (List.cons.inj he2).2
      subst he
      have hrest : e ++ q = [98, 42] := (List.cons.inj hs).2.symm
      cases e with
      | nil =>
        simp [is_atom_escape, is_decimal_escape, is_character_escape,
          is_character_class_escape] at hesc
      | cons y e3 =>
        have hy : y = 98 := (List.cons.inj hrest).1
        subst hy
        cases e3 with
        | nil =>
          simp [is_atom_escape, is_decimal_escape, is_character_escape,
            is_character_class_escape, is_identifier_part, is_control_letter] at hesc
        | cons z e4 =>
          have h2 := (List.cons.inj (List.cons.inj hrest).2).2
          exact hq0 (List.append_eq_nil.mp h2).2

/-! ## Validity of the produced text -/

/-- C1, where it fails: the fragment `match_or(match_digit(), match_space())` holds
the five characters of `\d|\s`, which are not one atom (whatever follows them);
a star suffixed to it gives the very text of `match_or(match_digit(),
match_zero_or_more(match_space()))`, so it does not bind to the whole fragment;
the fragment `match_one_or_more(match_digit())`, the text `\d+`, is not one
atom either; nor is `match_character('*')`, the text `*`. -/
theorem match_or_and_quantifier_fragments_are_not_atoms :
    (match_or char_traits_char (.element (match_digit char_traits_char))
        (.element (match_space char_traits_char))).str = [92, 100, 124, 92, 115] ∧
    (¬ ∃ la, Derives .Atom
        (match_or char_traits_char (.element (match_digit char_traits_char))
          (.element (match_space char_traits_char))).str la) ∧
    (match_zero_or_more char_traits_char
        (.element (match_or char_traits_char (.element (match_digit char_traits_char))
          (.element (match_space char_traits_char))))).str
      = (match_or char_traits_char (.element (match_digit char_traits_char))
          (.element (match_zero_or_more char_traits_char
            (.element (match_space char_traits_char))))).str ∧
    (¬ ∃ la, Derives .Atom
        (match_one_or_more char_traits_char
          (.element (match_digit char_traits_char))).str la) ∧
    (¬ ∃ la, Derives .Atom (match_character (42 : char)).str la) := by
  refine ⟨rfl, ?_, rfl, ?_, ?_⟩
  · rintro ⟨la, h⟩
    obtain ⟨e, he, hesc⟩ := atom_backslash_inversion h rfl
    have he2 : e = [100, 124, 92, 115] := by
      have := (List.cons.inj he).2
      exact this.symm
    subst he2
    simp [is_atom_escape, is_decimal_escape, is_character_escape,
      is_character_class_escape] at hesc
  · rintro ⟨la, h⟩
    obtain ⟨e, he, hesc⟩ := atom_backslash_inversion h rfl
    have he2 : e = [100, 43] := by
      have := (List.cons.inj he).2
      exact this.symm
    subst he2
    simp [is_atom_escape, is_decimal_escape, is_character_escape,
      is_character_class_escape, is_control_letter] at hesc
  · rintro ⟨la, h⟩
    have := derives_head_can_begin h 42 rfl
    simp [cannot_begin] at this

/-- C1 (amended): in a variant with the standard symbol table (the narrow and the
wide one), a fragment holds one atom or group of the grammar, whatever follows
it, when it is returned by `match_any`, by a class shorthand, by
`match_character(c)` for a pattern character `c`, by `match_escaped_char(c)`
where the backslash and `c` form an atom escape, by `match_range(a, b)` for
bounds in order, at most 127 and other than `]` and the backslash, or by
`match_group` / `capture_group` of an operand whose text is a self-contained
pattern. A quantifier operation on an operand whose text is one atom returns
that text followed by the quantifier (`*`, `+`, `?`, `{n}`, `{n,}` with `n` in
decimal), each of which is a quantifier of the grammar, and the whole is one
term. `match_or` of two self-contained patterns returns the first text, a bar
and the second text, a self-contained pattern. -/
theorem atom_operations_yield_single_atoms {char_t : Type} [char_type char_t]
    (traits : char_traits char_t) (hstd : standard_variant traits) :
    SingleAtom (code_units (match_any : regex_element char_t).str) ∧
    (SingleAtom (code_units (match_space traits).str) ∧
      SingleAtom (code_units (match_alpha_char traits).str) ∧
      SingleAtom (code_units (match_digit traits).str) ∧
      SingleAtom (code_units (match_not_space traits).str) ∧
      SingleAtom (code_units (match_not_alpha_char traits).str) ∧
      SingleAtom (code_units (match_not_digit traits).str)) ∧
    (∀ c : char_t, is_pattern_character (char_type.code c) = true →
      SingleAtom (code_units (match_character c).str)) ∧
    (∀ c : char_t, (∀ la, is_atom_escape [char_type.code c] la = true) →
      SingleAtom (code_units (match_escaped_char traits c).str)) ∧
    (∀ a b : char_t, is_range_bounds [char_type.code a] [char_type.code b] = true →
      char_type.code a ≠ 92 → char_type.code a ≠ 93 →
      char_type.code b ≠ 92 → char_type.code b ≠ 93 →
      SingleAtom (code_units (match_range traits a b).str)) ∧
    (∀ (e : regex_element char_t), SelfContainedPattern (code_units e.str) →
      SingleAtom (code_units (match_group traits e).str) ∧
      SingleAtom (code_units (capture_group traits e).str)) ∧
    (∀ (c : basic_regex_chain_holder char_t), SelfContainedPattern (code_units c.str) →
      SingleAtom (code_units (match_group_chain traits c).str) ∧
      SingleAtom (code_units (capture_group_chain traits c).str)) ∧
    (Quantifier [42] ∧ Quantifier [43] ∧ Quantifier [63] ∧
      ∀ n : size_t, Quantifier (123 :: to_string n ++ [125]) ∧
        Quantifier (123 :: to_string n ++ [44, 125])) ∧
    (∀ x : RegElement char_t, SingleAtom (code_units x.str) →
      (code_units (match_zero_or_more traits x).str = code_units x.str ++ [42] ∧
        ∀ la, Derives .Term (code_units (match_zero_or_more traits x).str) la) ∧
      (code_units (match_one_or_more traits x).str = code_units x.str ++ [43] ∧
        ∀ la, Derives .Term (code_units (match_one_or_more traits x).str) la) ∧
      (code_units (match_zero_or_one traits x).str = code_units x.str ++ [63] ∧
        ∀ la, Derives .Term (code_units (match_zero_or_one traits x).str) la)) ∧
    (∀ (x : RegElement char) (n : size_t), SingleAtom (code_units x.str) →
      (code_units (match_n char_traits_char x n).str
          = code_units x.str ++ (123 :: to_string n ++ [125]) ∧
        ∀ la, Derives .Term (code_units (match_n char_traits_char x n).str) la) ∧
      (code_units (match_n_or_more char_traits_char x n).str
          = code_units x.str ++ (123 :: to_string n ++ [44, 125]) ∧
        ∀ la, Derives .Term (code_units (match_n_or_more char_traits_char x n).str) la)) ∧
    (∀ x y : RegElement char_t, SelfContainedPattern (code_units x.str) →
      SelfContainedPattern (code_units y.str) →
      code_units (match_or traits x y).str = code_units x.str ++ 124 :: code_units y.str ∧
      SelfContainedPattern (code_units (match_or traits x y).str)) := by
  have hsh := units_shorthands traits hstd
  refine ⟨?_, ⟨?_, ?_, ?_, ?_, ?_, ?_⟩, ?_, ?_, ?_, ?_, ?_, ?_, ?_, ?_, ?_⟩
  · rw [units_match_any traits hstd]
    exact fun la => Derives.atom_dot la
  · rw [hsh.1]
    exact escape_is_single_atom (class_shorthand_is_atom_escape 115 rfl)
  · rw [hsh.2.1]
    exact escape_is_single_atom (class_shorthand_is_atom_escape 119 rfl)
  · rw [hsh.2.2.1]
    exact escape_is_single_atom (class_shorthand_is_atom_escape 100 rfl)
  · rw [hsh.2.2.2.1]
    exact escape_is_single_atom (class_shorthand_is_atom_escape 83 rfl)
  · rw [hsh.2.2.2.2.1]
    exact escape_is_single_atom (class_shorthand_is_atom_escape 87 rfl)
  · rw [hsh.2.2.2.2.2]
    exact escape_is_single_atom (class_shorthand_is_atom_escape 68 rfl)
  · intro c hc
    rw [units_match_character]
    exact fun la => Derives.atom_character _ la hc
  · intro c hc
    rw [units_match_escaped_char traits hstd]
    exact escape_is_single_atom hc
  · intro a b hab ha1 ha2 hb1 hb2
    rw [units_match_range traits hstd]
    exact range_is_single_atom _ _ hab ha1 ha2 hb1 hb2
  · intro e he
    rw [(units_groups traits hstd e ⟨[]⟩).1, (units_groups traits hstd e ⟨[]⟩).2.2.1]
    exact ⟨non_capturing_group_is_single_atom he, group_is_single_atom he⟩
  · intro c hc
    rw [(units_groups traits hstd ⟨[]⟩ c).2.1, (units_groups traits hstd ⟨[]⟩ c).2.2.2]
    exact ⟨non_capturing_group_is_single_atom hc, group_is_single_atom hc⟩
  · exact ⟨Quantifier.greedy _ QuantifierPrefix.star, Quantifier.greedy _ QuantifierPrefix.plus,
      Quantifier.greedy _ QuantifierPrefix.question, fun n =>
        ⟨Quantifier.greedy _ (QuantifierPrefix.exactly _ (to_string_is_decimal_digits n)),
          Quantifier.greedy _ (QuantifierPrefix.at_least _ (to_string_is_decimal_digits n))⟩⟩
  · intro x hx
    obtain ⟨h1, h2, h3⟩ := units_quantifiers traits hstd x
    rw [h1, h2, h3]
    exact ⟨⟨rfl, single_atom_quantified hx (Quantifier.greedy _ QuantifierPrefix.star)⟩,
      ⟨rfl, single_atom_quantified hx (Quantifier.greedy _ QuantifierPrefix.plus)⟩,
      ⟨rfl, single_atom_quantified hx (Quantifier.greedy _ QuantifierPrefix.question)⟩⟩
  · intro x n hx
    obtain ⟨h1, h2⟩ := units_counts x n
    rw [h1, h2]
    exact ⟨⟨rfl, single_atom_quantified hx
        (Quantifier.greedy _ (QuantifierPrefix.exactly _ (to_string_is_decimal_digits n)))⟩,
      ⟨rfl, single_atom_quantified hx
        (Quantifier.greedy _ (QuantifierPrefix.at_least _ (to_string_is_decimal_digits n)))⟩⟩
  · intro x y hx hy
    rw [units_match_or traits hstd]
    exact ⟨rfl, self_contained_bar hx hy⟩

/-- C1 (amended), at concrete operands of both variants: the narrow and the wide
symbol table are standard; the narrow `capture_group(match_digit())`, the text
`(\d)`, is one atom, and `match_zero_or_more` of it is that text followed by a
star, one term; the wide `match_range(L'a', L'z')`, the text `[a-z]`, is one
atom, and `match_one_or_more` of it is that text followed by a plus. -/
theorem atom_operations_yield_single_atoms_witness :
    standard_variant char_traits_char ∧ standard_variant char_traits_wchar_t ∧
    code_units (capture_group char_traits_char (match_digit char_traits_char)).str
      = [40, 92, 100, 41] ∧
    SingleAtom (code_units
      (capture_group char_traits_char (match_digit char_traits_char)).str) ∧
    code_units (match_zero_or_more char_traits_char
        (.element (capture_group char_traits_char (match_digit char_traits_char)))).str
      = [40, 92, 100, 41, 42] ∧
    Derives .Term
      (code_units (match_zero_or_more char_traits_char
        (.element (capture_group char_traits_char (match_digit char_traits_char)))).str)
      none ∧
    code_units (match_range char_traits_wchar_t ⟨97⟩ ⟨122⟩).str = [91, 97, 45, 122, 93] ∧
    SingleAtom (code_units (match_range char_traits_wchar_t ⟨97⟩ ⟨122⟩).str) ∧
    code_units (match_one_or_more char_traits_wchar_t
        (.element (match_range char_traits_wchar_t ⟨97⟩ ⟨122⟩))).str
      = [91, 97, 45, 122, 93, 43] := by
  obtain ⟨_, ⟨_, _, hdigit, _, _, _⟩, _, _, _, hgroup, _, _, hquant, _, _⟩ :=
    atom_operations_yield_single_atoms char_traits_char standard_variant_narrow
  obtain ⟨_, _, _, _, hrange, _, _, _, hwquant, _, _⟩ :=
    atom_operations_yield_single_atoms char_traits_wchar_t standard_variant_wide
  have h1 := (hgroup (match_digit char_traits_char) (self_contained_of_single_atom hdigit)).2
  have h2 := hrange ⟨97⟩ ⟨122⟩ (by decide) (by decide) (by decide) (by decide) (by decide)
  exact ⟨standard_variant_narrow, standard_variant_wide, rfl, h1, rfl,
    (hquant (.element _) h1).1.2 none, rfl, h2, rfl⟩

/-- C2, where it fails: `match_zero_or_more(create_regex())`, a fragment produced by
the listed operations alone and with no literal input, holds the text `*`, which
is not a pattern of the grammar. -/
theorem quantified_empty_chain_is_not_a_pattern :
    (match_zero_or_more char_traits_char (.chain create_regex)).str = [42] ∧
    ¬ Pattern (match_zero_or_more char_traits_char (.chain create_regex)).str := by
  refine ⟨rfl, ?_⟩
  intro h
  have := derives_head_can_begin h 42 rfl
  simp [cannot_begin] at this

/-- C2 (amended): in a variant with the standard symbol table (the narrow and the
wide one), every fragment or chain produced solely through `create_regex`,
`create_regex_from_string`, `then_match` and the generator operations, nested
to any depth, from literal arguments that belong to the grammar category they
are spliced in as, and with every quantifier applied to an operand whose
text ends in an atom, holds a pattern of the grammar, and a self-contained one
(a pattern whatever follows it). -/
theorem produced_text_is_a_pattern {char_t : Type} [char_type char_t]
    (traits : char_traits char_t) (x : RegElement char_t) (hstd : standard_variant traits)
    (h : Produced traits x) :
    Pattern (code_units x.str) ∧ SelfContainedPattern (code_units x.str) :=
  ⟨produced_is_self_contained h hstd none, produced_is_self_contained h hstd⟩

/-- C2 (amended), at concrete values of both variants: the narrow fragment
`capture_group(create_regex().then_match(match_range('a','z')).then_match(
match_one_or_more(match_space())))` is produced as required, its text is
`([a-z]\s+)`, and that text is a pattern; so is the text `\d|.` of the wide
`match_or(match_digit(), match_any())`. -/
theorem produced_text_is_a_pattern_witness :
    standard_variant char_traits_char ∧ standard_variant char_traits_wchar_t ∧
    code_units (capture_group_chain char_traits_char
        ((create_regex.then_match (match_range char_traits_char 97 122)).then_match
          (match_one_or_more char_traits_char
            (.element (match_space char_traits_char))))).str
      = [40, 91, 97, 45, 122, 93, 92, 115, 43, 41] ∧
    Pattern (code_units (capture_group_chain char_traits_char
        ((create_regex.then_match (match_range char_traits_char 97 122)).then_match
          (match_one_or_more char_traits_char
            (.element (match_space char_traits_char))))).str) ∧
    code_units (match_or char_traits_wchar_t (.element (match_digit char_traits_wchar_t))
        (.element match_any)).str = [92, 100, 124, 46] ∧
    Pattern (code_units (match_or char_traits_wchar_t
        (.element (match_digit char_traits_wchar_t)) (.element match_any)).str) := by
  have hspace : EndsInAtom
      (code_units (RegElement.element (match_space char_traits_char)).str) :=
    ends_in_atom_of_single_atom
      (escape_is_single_atom (class_shorthand_is_atom_escape 115 rfl))
  have hp : Produced char_traits_char (.element (capture_group_chain char_traits_char
      ((create_regex.then_match (match_range char_traits_char 97 122)).then_match
        (match_one_or_more char_traits_char (.element (match_space char_traits_char)))))) :=
    Produced.capture_group_chain _ _
      (Produced.then_match _ _ _
        (Produced.then_match _ _ _ Produced.create_regex
          (Produced.match_range _ 97 122 (by decide) (by decide) (by decide) (by decide)
            (by decide)))
        (Produced.match_one_or_more _ _ (Produced.match_space _) hspace))
  have hw : Produced char_traits_wchar_t
      (.element (match_or char_traits_wchar_t (.element (match_digit char_traits_wchar_t))
        (.element match_any))) :=
    Produced.match_or _ _ _ (Produced.match_digit _) (Produced.match_any _)
  exact ⟨standard_variant_narrow, standard_variant_wide, rfl,
    (produced_text_is_a_pattern _ _ standard_variant_narrow hp).1, rfl,
    (produced_text_is_a_pattern _ _ standard_variant_wide hw).1⟩

/-! ## Chains: `create_regex`, `create_regex_from_string`, `then_match` -/

/-- C3: the chain obtained from `create_regex_from_string(s)` (from `create_regex()`,
where the seed is empty) by `then_match(f1)`, ..., `then_match(fn)` in that order
has the text `s ++ f1.str() ++ ... ++ fn.str()`; every `then_match` returns the
chain it was called on, updated, and this result is a function of the two texts
alone; so appending `A` then `B` to an empty chain yields the text of `A`
followed by the text of `B`, and appending in two batches, or appending one
fragment that holds the joined text, equals appending in one. -/
theorem then_match_concatenates_in_call_order {char_t : Type} :
    (∀ (s : string_view char_t) (fs : List (regex_element char_t)),
        (fs.foldl basic_regex_chain_holder.then_match (create_regex_from_string s)).str
          = s.chars ++ (fs.map regex_element.str).flatten) ∧
    (∀ fs : List (regex_element char),
        (fs.foldl basic_regex_chain_holder.then_match create_regex).str
          = (fs.map regex_element.str).flatten) ∧
    (∀ (c : basic_regex_chain_holder char_t) (f : regex_element char_t),
        c.then_match f = { str_ := c.str ++ f.str }) ∧
    (∀ A B : regex_element char,
        ((create_regex.then_match A).then_match B).str = A.str ++ B.str) ∧
    (∀ (c : basic_regex_chain_holder char_t) (fs gs : List (regex_element char_t)),
        (fs ++ gs).foldl basic_regex_chain_holder.then_match c
          = gs.foldl basic_regex_chain_holder.then_match
              (fs.foldl basic_regex_chain_holder.then_match c)) ∧
    (∀ (c : basic_regex_chain_holder char_t) (A B : regex_element char_t),
        (c.then_match A).then_match B = c.then_match { str_ := A.str ++ B.str }) := by
  refine ⟨?_, ?_, ?_, ?_, ?_, ?_⟩
  · intro s fs
    rw [foldl_then_match_str]
    rfl
  · intro fs
    rw [foldl_then_match_str]
    simp
  · intro c f
    rfl
  · intro A B
    simp
  · intro c fs gs
    exact List.foldl_append _ _ _ _
  · intro c A B
    apply chain_ext_str
    simp [regex_element.str, List.append_assoc]

/-! ## Alternation and quantifiers -/

/-- C4: for operands `a` and `b`, each a fragment or a chain, `match_or(a, b).str()`
is the text of `a`, the bar character, the text of `b`; in both variants. -/
theorem match_or_joins_with_bar :
    (∀ a b : RegElement char,
        (match_or char_traits_char a b).str = a.str ++ [124] ++ b.str) ∧
    (∀ a b : RegElement wchar_t,
        (match_or char_traits_wchar_t a b).str = a.str ++ [⟨124⟩] ++ b.str) ∧
    (∀ (e1 e2 : regex_element char) (c1 c2 : basic_regex_chain_holder char),
        (match_or char_traits_char (.element e1) (.element e2)).str = e1.str ++ [124] ++ e2.str ∧
        (match_or char_traits_char (.element e1) (.chain c2)).str = e1.str ++ [124] ++ c2.str ∧
        (match_or char_traits_char (.chain c1) (.element e2)).str = c1.str ++ [124] ++ e2.str ∧
        (match_or char_traits_char (.chain c1) (.chain c2)).str = c1.str ++ [124] ++ c2.str) :=
  ⟨fun _ _ => rfl, fun _ _ => rfl, fun _ _ _ _ => ⟨rfl, rfl, rfl, rfl⟩⟩

/-- C5: for every operand `x` (fragment or chain), `match_zero_or_more` appends the
star, `match_one_or_more` the plus sign and `match_zero_or_one` the question mark
to the text of `x`, in both variants; and
`create_regex().then_match(match_one_or_more(match_digit()))` has the text
backslash, `d`, `+`. -/
theorem quantifiers_append_one_character :
    (∀ x : RegElement char,
        (match_zero_or_more char_traits_char x).str = x.str ++ [42] ∧
        (match_one_or_more char_traits_char x).str = x.str ++ [43] ∧
        (match_zero_or_one char_traits_char x).str = x.str ++ [63]) ∧
    (∀ x : RegElement wchar_t,
        (match_zero_or_more char_traits_wchar_t x).str = x.str ++ [⟨42⟩] ∧
        (match_one_or_more char_traits_wchar_t x).str = x.str ++ [⟨43⟩] ∧
        (match_zero_or_one char_traits_wchar_t x).str = x.str ++ [⟨63⟩]) ∧
    (create_regex.then_match
        (match_one_or_more char_traits_char (.element (match_digit char_traits_char)))).str
      = [92, 100, 43] :=
  ⟨fun _ => ⟨rfl, rfl, rfl⟩, fun _ => ⟨rfl, rfl, rfl⟩, rfl⟩

/-- C6: for every operand `x` and every count `n`, `match_n(x, n).str()` is the text
of `x`, an opening curly bracket, `std::to_string(n)`, a closing curly bracket,
and `match_n_or_more(x, n).str()` has a comma before the closing bracket;
`std::to_string(n)` is the base-10 numeral of `n` (digits only, no leading zero,
`0` for zero); and `match_n(match_character('x'), 5)` has the text `x{5}`. -/
theorem match_n_appends_decimal_count :
    (∀ (x : RegElement char) (n : size_t),
        (match_n char_traits_char x n).str = x.str ++ [123] ++ to_string n ++ [125] ∧
        (match_n_or_more char_traits_char x n).str
          = x.str ++ [123] ++ to_string n ++ [44, 125]) ∧
    (∀ n : size_t, is_decimal_numeral (to_string n) n) ∧
    to_string 0 = [48] ∧
    (match_n char_traits_char (.element (match_character 120)) 5).str = [120, 123, 53, 125] := by
  refine ⟨fun x n => ⟨rfl, ?_⟩, to_string_is_decimal_numeral, rfl, ?_⟩
  · simp [match_n_or_more, char_traits_char]
  · simp [match_n, match_character, RegElement.str, to_string, char_traits_char]

/-! ## Groups -/

/-- C7: for every operand, passed as a fragment or as a chain, `capture_group`
yields its text between round brackets and `match_group` its text between
`(?:` and `)`; in both variants. -/
theorem groups_wrap_operand_text :
    (∀ (e : regex_element char) (c : basic_regex_chain_holder char),
        (capture_group char_traits_char e).str = [40] ++ e.str ++ [41] ∧
        (capture_group_chain char_traits_char c).str = [40] ++ c.str ++ [41] ∧
        (match_group char_traits_char e).str = [40, 63, 58] ++ e.str ++ [41] ∧
        (match_group_chain char_traits_char c).str = [40, 63, 58] ++ c.str ++ [41]) ∧
    (∀ (e : regex_element wchar_t) (c : basic_regex_chain_holder wchar_t),
        (capture_group char_traits_wchar_t e).str = [⟨40⟩] ++ e.str ++ [⟨41⟩] ∧
        (capture_group_chain char_traits_wchar_t c).str = [⟨40⟩] ++ c.str ++ [⟨41⟩] ∧
        (match_group char_traits_wchar_t e).str = [⟨40⟩, ⟨63⟩, ⟨58⟩] ++ e.str ++ [⟨41⟩] ∧
        (match_group_chain char_traits_wchar_t c).str
          = [⟨40⟩, ⟨63⟩, ⟨58⟩] ++ c.str ++ [⟨41⟩]) :=
  ⟨fun _ _ => ⟨rfl, rfl, rfl, rfl⟩, fun _ _ => ⟨rfl, rfl, rfl, rfl⟩⟩

/-! ## Literals -/

/-- C8, at the inputs where it fails: `match_any_of` and `match_none_of` append
`chars.data()` as a zero-terminated array. For the view of the first three
characters of the literal `abcdef` they yield `[abcdef]` and `[^abcdef]`, not
`[abc]` and `[^abc]`; for a view of the three code units `a`, zero, `b` they
yield `[a]` and `[^a]`. On the literal `abc`, which has no zero unit before its
terminator, `match_none_of` does yield `[^abc]`. -/
theorem match_any_of_ignores_view_length :
    (match_any_of char_traits_char
        { chars := [97, 98, 99], after := [100, 101, 102, 0] }).map regex_element.str
      = some [91, 97, 98, 99, 100, 101, 102, 93] ∧
    (match_none_of char_traits_char
        { chars := [97, 98, 99], after := [100, 101, 102, 0] }).map regex_element.str
      = some [91, 94, 97, 98, 99, 100, 101, 102, 93] ∧
    (match_any_of char_traits_char
        (string_view.of_string [97, 0, 98])).map regex_element.str = some [91, 97, 93] ∧
    (match_none_of char_traits_char
        (string_view.of_string [97, 0, 98])).map regex_element.str = some [91, 94, 97, 93] ∧
    (match_none_of char_traits_char
        (string_view.of_literal [97, 98, 99, 0])).map regex_element.str
      = some [91, 94, 97, 98, 99, 93] := by
  refine ⟨?_, ?_, ?_, ?_, ?_⟩ <;> decide

/-- C9: for every character `c` of either character type, `match_character(c).str()`
is the string of length one whose only character is `c`. -/
theorem match_character_is_the_character {char_t : Type} [char_type char_t] (c : char_t) :
    (match_character c).str = [c] ∧ (match_character c).str.length = 1 :=
  ⟨rfl, rfl⟩

/-- C10: for every string `s`, `match_string(s).str()` is `s`, character for
character; in particular the text of `match_string` of a one-character string
`c` is never `escape(c)`, the backslash followed by `c`. -/
theorem match_string_is_verbatim {char_t : Type} [char_type char_t] :
    (∀ s : string_view char_t, (match_string s).str = s.chars) ∧
    (∀ s : string_t char_t, (match_string (string_view.of_string s)).str = s) ∧
    (∀ (traits : char_traits char_t) (c : char_t),
        (match_string (string_view.of_string [c])).str ≠ escape traits c) := by
  refine ⟨fun _ => rfl, fun _ => rfl, ?_⟩
  intro traits c h
  have := congrArg List.length h
  simp [match_string, string_view.of_string, escape] at this

/-! ## Ranges, shorthands and escapes -/

/-- C11: for every pair of characters `a` and `b`, in any order and equal or not,
`match_range(a, b).str()` is the five-character string `[`, `a`, `-`, `b`, `]`, in
both variants; `match_range('a','z')` yields `[a-z]`. -/
theorem match_range_is_bracketed_pair :
    (∀ a b : char, (match_range char_traits_char a b).str = [91, a, 45, b, 93] ∧
      (match_range char_traits_char a b).str.length = 5) ∧
    (∀ a b : wchar_t, (match_range char_traits_wchar_t a b).str = [⟨91⟩, a, ⟨45⟩, b, ⟨93⟩] ∧
      (match_range char_traits_wchar_t a b).str.length = 5) ∧
    (match_range char_traits_char 97 122).str = [91, 97, 45, 122, 93] :=
  ⟨fun _ _ => ⟨rfl, rfl⟩, fun _ _ => ⟨rfl, rfl⟩, rfl⟩

/-- C12: `match_space`, `match_alpha_char`, `match_digit`, `match_not_space`,
`match_not_alpha_char`, `match_not_digit` yield the backslash followed by `s`,
`w`, `d`, `S`, `W`, `D`; `match_any` yields the one-character string `.`; for
every character `c`, `match_escaped_char(c).str()` is the backslash followed by
`c`, so each class shorthand equals `match_escaped_char` of its letter; in both
variants. -/
theorem shorthands_are_fixed_strings :
    ((match_space char_traits_char).str = [92, 115] ∧
      (match_alpha_char char_traits_char).str = [92, 119] ∧
      (match_digit char_traits_char).str = [92, 100] ∧
      (match_not_space char_traits_char).str = [92, 83] ∧
      (match_not_alpha_char char_traits_char).str = [92, 87] ∧
      (match_not_digit char_traits_char).str = [92, 68] ∧
      (match_any : regex_element char).str = [46]) ∧
    ((match_space char_traits_wchar_t).str = [⟨92⟩, ⟨115⟩] ∧
      (match_alpha_char char_traits_wchar_t).str = [⟨92⟩, ⟨119⟩] ∧
      (match_digit char_traits_wchar_t).str = [⟨92⟩, ⟨100⟩] ∧
      (match_not_space char_traits_wchar_t).str = [⟨92⟩, ⟨83⟩] ∧
      (match_not_alpha_char char_traits_wchar_t).str = [⟨92⟩, ⟨87⟩] ∧
      (match_not_digit char_traits_wchar_t).str = [⟨92⟩, ⟨68⟩] ∧
      (match_any : regex_element wchar_t).str = [⟨46⟩]) ∧
    (∀ c : char, (match_escaped_char char_traits_char c).str = [92, c] ∧
      (match_escaped_char char_traits_char c).str.length = 2) ∧
    (∀ c : wchar_t, (match_escaped_char char_traits_wchar_t c).str = [⟨92⟩, c] ∧
      (match_escaped_char char_traits_wchar_t c).str.length = 2) ∧
    (match_space char_traits_char = match_escaped_char char_traits_char 115 ∧
      match_alpha_char char_traits_char = match_escaped_char char_traits_char 119 ∧
      match_digit char_traits_char = match_escaped_char char_traits_char 100 ∧
      match_not_space char_traits_char = match_escaped_char char_traits_char 83 ∧
      match_not_alpha_char char_traits_char = match_escaped_char char_traits_char 87 ∧
      match_not_digit char_traits_char = match_escaped_char char_traits_char 68) :=
  ⟨⟨rfl, rfl, rfl, rfl, rfl, rfl, rfl⟩, ⟨rfl, rfl, rfl, rfl, rfl, rfl, rfl⟩,
    fun _ => ⟨rfl, rfl⟩, fun _ => ⟨rfl, rfl⟩, ⟨rfl, rfl, rfl, rfl, rfl, rfl⟩⟩

/-! ## Capturing a chain -/

/-- C13: for every chain built from `create_regex()` by appending the fragments
`f1`, ..., `fn`, `capture_group(chain).str()` is `(`, the texts of `f1`, ..., `fn` in
order, `)`; the chain handed in (by reference to const) still has the text of
`f1`, ..., `fn`, so a fragment appended to it afterwards lands after them; and
with `f1 = match_range('a','z')`, `f2 = match_space()` the result is the nine
characters `([a-z]`, backslash, `s`, `)`. -/
theorem capture_group_of_chain :
    (∀ fs : List (regex_element char),
      (capture_group_chain char_traits_char
          (fs.foldl basic_regex_chain_holder.then_match create_regex)).str
        = [40] ++ (fs.map regex_element.str).flatten ++ [41]) ∧
    (∀ (fs : List (regex_element char)) (g : regex_element char),
      (fs.foldl basic_regex_chain_holder.then_match create_regex).str
        = (fs.map regex_element.str).flatten ∧
      ((fs.foldl basic_regex_chain_holder.then_match create_regex).then_match g).str
        = (fs.map regex_element.str).flatten ++ g.str) ∧
    (capture_group_chain char_traits_char
        ((create_regex.then_match (match_range char_traits_char 97 122)).then_match
          (match_space char_traits_char))).str
      = [40, 91, 97, 45, 122, 93, 92, 115, 41] ∧
    (capture_group_chain char_traits_char
        ((create_regex.then_match (match_range char_traits_char 97 122)).then_match
          (match_space char_traits_char))).str.length = 9 := by
  refine ⟨?_, ?_, rfl, rfl⟩
  · intro fs
    simp [capture_group_chain, foldl_then_match_str, char_traits_char]
  · intro fs g
    simp [foldl_then_match_str]

/-! ## Operands are read through their text -/

/-- C16: for a fragment `F` and a chain `C` with the same text, every operation that
accepts either kind returns the same fragment for `F` as for `C`: `match_or` in
either position, the three quantifiers, `match_n`, `match_n_or_more`,
`match_group` and `capture_group`; the two overloads of `match_group`, and the
two of `capture_group`, are each one function of the operand text. -/
theorem operations_read_operands_by_text {char_t : Type} [char_type char_t]
    (traits : char_traits char_t) (F : regex_element char_t)
    (C : basic_regex_chain_holder char_t) (h : F.str = C.str) :
    (∀ y : RegElement char_t,
      match_or traits (.element F) y = match_or traits (.chain C) y ∧
      match_or traits y (.element F) = match_or traits y (.chain C)) ∧
    match_zero_or_more traits (.element F) = match_zero_or_more traits (.chain C) ∧
    match_one_or_more traits (.element F) = match_one_or_more traits (.chain C) ∧
    match_zero_or_one traits (.element F) = match_zero_or_one traits (.chain C) ∧
    match_group traits F = match_group_chain traits C ∧
    capture_group traits F = capture_group_chain traits C ∧
    (∀ (F0 : regex_element char) (C0 : basic_regex_chain_holder char) (n : size_t),
      F0.str = C0.str →
      match_n char_traits_char (.element F0) n = match_n char_traits_char (.chain C0) n ∧
      match_n_or_more char_traits_char (.element F0) n
        = match_n_or_more char_traits_char (.chain C0) n) ∧
    (∃ g : string_t char_t → regex_element char_t,
      (∀ e : regex_element char_t, match_group traits e = g e.str) ∧
      (∀ c : basic_regex_chain_holder char_t, match_group_chain traits c = g c.str)) ∧
    (∃ g : string_t char_t → regex_element char_t,
      (∀ e : regex_element char_t, capture_group traits e = g e.str) ∧
      (∀ c : basic_regex_chain_holder char_t, capture_group_chain traits c = g c.str)) := by
  refine ⟨fun y => ⟨?_, ?_⟩, ?_, ?_, ?_, ?_, ?_, ?_, ?_, ?_⟩
  · simp only [match_or, RegElement.str, h]
  · simp only [match_or, RegElement.str, h]
  · simp only [match_zero_or_more, RegElement.str, h]
  · simp only [match_one_or_more, RegElement.str, h]
  · simp only [match_zero_or_one, RegElement.str, h]
  · simp only [match_group, match_group_chain, h]
  · simp only [capture_group, capture_group_chain, h]
  · intro F0 C0 n h0
    simp only [match_n, match_n_or_more, RegElement.str, h0, and_self]
  · exact ⟨fun t => regex_element.of_string
      ((((([] ++ [traits.round_open]) ++ [traits.question_mark]) ++ [traits.colon]) ++ t)
        ++ [traits.round_close]), fun _ => rfl, fun _ => rfl⟩
  · exact ⟨fun t => regex_element.of_string ((traits.round_open :: t) ++ [traits.round_close]),
      fun _ => rfl, fun _ => rfl⟩

/-- C16, at a concrete pair: the fragment `match_digit()` and the chain
`create_regex().then_match(match_digit())` have the same text, and
`capture_group` and `match_one_or_more` return the same fragment for both. -/
theorem operations_read_operands_by_text_witness :
    (match_digit char_traits_char).str
      = (create_regex.then_match (match_digit char_traits_char)).str ∧
    capture_group char_traits_char (match_digit char_traits_char)
      = capture_group_chain char_traits_char
          (create_regex.then_match (match_digit char_traits_char)) ∧
    match_one_or_more char_traits_char (.element (match_digit char_traits_char))
      = match_one_or_more char_traits_char
          (.chain (create_regex.then_match (match_digit char_traits_char))) :=
  have h := operations_read_operands_by_text char_traits_char (match_digit char_traits_char)
    (create_regex.then_match (match_digit char_traits_char)) rfl
  ⟨rfl, h.2.2.2.2.2.1, h.2.2.1⟩

/-! ## Quantifiers and alternation insert no grouping -/

/-- C17: for all operands `A` and `B`, a quantifier applied to `match_or(A, B)` gives
the same text as `match_or(A, ·)` applied to the quantified `B`, and that text
is the text of `A`, a bar, the text of `B`, the quantifier suffix (`*`, `+`,
`?`, `{n}`, `{n,}` with `n` in decimal); this for `match_zero_or_more`,
`match_one_or_more`, `match_zero_or_one`, `match_n` and `match_n_or_more` in
the narrow variant and for the first three in the wide one. And appending
`match_or(A, B)` and then a fragment `C` to an empty chain gives the text of
`match_or(A, D)`, where `D` is the chain of `B` then `C`: the text of `A`, a
bar, the text of `B`, the text of `C`. -/
theorem quantifier_after_alternation_is_suffix :
    (∀ A B : RegElement char,
      (match_zero_or_more char_traits_char (.element (match_or char_traits_char A B))).str
        = (match_or char_traits_char A
            (.element (match_zero_or_more char_traits_char B))).str ∧
      (match_zero_or_more char_traits_char (.element (match_or char_traits_char A B))).str
        = A.str ++ [124] ++ B.str ++ [42] ∧
      (match_one_or_more char_traits_char (.element (match_or char_traits_char A B))).str
        = (match_or char_traits_char A
            (.element (match_one_or_more char_traits_char B))).str ∧
      (match_one_or_more char_traits_char (.element (match_or char_traits_char A B))).str
        = A.str ++ [124] ++ B.str ++ [43] ∧
      (match_zero_or_one char_traits_char (.element (match_or char_traits_char A B))).str
        = (match_or char_traits_char A
            (.element (match_zero_or_one char_traits_char B))).str ∧
      (match_zero_or_one char_traits_char (.element (match_or char_traits_char A B))).str
        = A.str ++ [124] ++ B.str ++ [63]) ∧
    (∀ (A B : RegElement char) (n : size_t),
      (match_n char_traits_char (.element (match_or char_traits_char A B)) n).str
        = (match_or char_traits_char A (.element (match_n char_traits_char B n))).str ∧
      (match_n char_traits_char (.element (match_or char_traits_char A B)) n).str
        = A.str ++ [124] ++ B.str ++ [123] ++ to_string n ++ [125] ∧
      (match_n_or_more char_traits_char (.element (match_or char_traits_char A B)) n).str
        = (match_or char_traits_char A
            (.element (match_n_or_more char_traits_char B n))).str ∧
      (match_n_or_more char_traits_char (.element (match_or char_traits_char A B)) n).str
        = A.str ++ [124] ++ B.str ++ [123] ++ to_string n ++ [44, 125]) ∧
    (∀ A B : RegElement wchar_t,
      (match_zero_or_more char_traits_wchar_t
          (.element (match_or char_traits_wchar_t A B))).str
        = (match_or char_traits_wchar_t A
            (.element (match_zero_or_more char_traits_wchar_t B))).str ∧
      (match_zero_or_more char_traits_wchar_t
          (.element (match_or char_traits_wchar_t A B))).str
        = A.str ++ [⟨124⟩] ++ B.str ++ [⟨42⟩] ∧
      (match_one_or_more char_traits_wchar_t
          (.element (match_or char_traits_wchar_t A B))).str
        = (match_or char_traits_wchar_t A
            (.element (match_one_or_more char_traits_wchar_t B))).str ∧
      (match_one_or_more char_traits_wchar_t
          (.element (match_or char_traits_wchar_t A B))).str
        = A.str ++ [⟨124⟩] ++ B.str ++ [⟨43⟩] ∧
      (match_zero_or_one char_traits_wchar_t
          (.element (match_or char_traits_wchar_t A B))).str
        = (match_or char_traits_wchar_t A
            (.element (match_zero_or_one char_traits_wchar_t B))).str ∧
      (match_zero_or_one char_traits_wchar_t
          (.element (match_or char_traits_wchar_t A B))).str
        = A.str ++ [⟨124⟩] ++ B.str ++ [⟨63⟩]) ∧
    (∀ (A : RegElement char) (B C : regex_element char),
      ((create_regex.then_match (match_or char_traits_char A (.element B))).then_match C).str
        = (match_or char_traits_char A
            (.chain ((create_regex.then_match B).then_match C))).str ∧
      ((create_regex.then_match (match_or char_traits_char A (.element B))).then_match C).str
        = A.str ++ [124] ++ B.str ++ C.str) ∧
    (∀ (A : RegElement char) (B : basic_regex_chain_holder char) (C : regex_element char),
      ((create_regex.then_match (match_or char_traits_char A (.chain B))).then_match C).str
        = (match_or char_traits_char A (.chain (B.then_match C))).str ∧
      ((create_regex.then_match (match_or char_traits_char A (.chain B))).then_match C).str
        = A.str ++ [124] ++ B.str ++ C.str) ∧
    (∀ (A : RegElement wchar_t) (B : basic_regex_chain_holder wchar_t)
        (C : regex_element wchar_t),
      (((create_regex_from_string (string_view.of_string [])).then_match
          (match_or char_traits_wchar_t A (.chain B))).then_match C).str
        = (match_or char_traits_wchar_t A (.chain (B.then_match C))).str ∧
      (((create_regex_from_string (string_view.of_string [])).then_match
          (match_or char_traits_wchar_t A (.chain B))).then_match C).str
        = A.str ++ [⟨124⟩] ++ B.str ++ C.str) := by
  refine ⟨fun A B => ⟨?_, ?_, ?_, ?_, ?_, ?_⟩, fun A B n => ⟨?_, ?_, ?_, ?_⟩,
    fun A B => ⟨?_, ?_, ?_, ?_, ?_, ?_⟩, fun A B C => ⟨?_, ?_⟩, fun A B C => ⟨?_, ?_⟩,
    fun A B C => ⟨?_, ?_⟩⟩
  all_goals
    simp [match_zero_or_more, match_one_or_more, match_zero_or_one, match_n, match_n_or_more,
      match_or, RegElement.str, char_traits_char, char_traits_wchar_t, List.append_assoc,
      create_regex_from_string, string_view.of_string]
  all_goals first | rfl | exact ⟨rfl, rfl⟩

/-! ## Bracket bodies are read as zero-terminated arrays -/

section c_string

variable {char_t : Type} [char_type char_t]

theorem c_str_of_zero_terminated (pre : List char_t) (z : char_t) (rest : List char_t)
    (hpre : ∀ c ∈ pre, char_type.code c ≠ 0) (hz : char_type.code z = 0) :
    c_str (pre ++ z :: rest) = some pre := by
  induction pre with
  | nil => simp [c_str, hz]
  | cons c cs ih =>
    have hc := hpre c (List.mem_cons_self _ _)
    simp [c_str, hc, ih (fun x hx => hpre x (List.mem_cons_of_mem _ hx))]

theorem c_str_eq_some (l b : List char_t) (h : c_str l = some b) :
    ∃ z rest, l = b ++ z :: rest ∧ char_type.code z = 0 ∧ ∀ c ∈ b, char_type.code c ≠ 0 := by
  induction l generalizing b with
  | nil => simp [c_str] at h
  | cons c cs ih =>
    by_cases hc : char_type.code c = 0
    · simp [c_str, hc] at h
      subst h
      exact ⟨c, cs, rfl, hc, by simp⟩
    · simp [c_str, hc] at h
      obtain ⟨r, hr, rfl⟩ := h
      obtain ⟨z, rest, h1, h2, h3⟩ := ih r hr
      refine ⟨z, rest, by simp [h1], h2, ?_⟩
      intro x hx
      rcases List.mem_cons.mp hx with rfl | hx
      · exact hc
      · exact h3 x hx

theorem c_str_to_first_zero (l after : List char_t) (i : Nat) (z : char_t)
    (hz : l[i]? = some z) (hzero : char_type.code z = 0)
    (hbefore : ∀ j c, j < i → l[j]? = some c → char_type.code c ≠ 0) :
    c_str (l ++ after) = some (l.take i) := by
  obtain ⟨hi, hget⟩ := List.getElem?_eq_some.mp hz
  have hsplit : l = l.take i ++ z :: l.drop (i + 1) := by
    have h1 := (List.take_append_drop i l).symm
    rw [List.drop_eq_getElem_cons hi, hget] at h1
    exact h1
  have hpre : ∀ c ∈ l.take i, char_type.code c ≠ 0 := by
    intro c hc
    obtain ⟨j, hj⟩ := List.mem_iff_getElem?.mp hc
    rw [List.getElem?_take] at hj
    by_cases hji : j < i
    · rw [if_pos hji] at hj
      exact hbefore j c hji hj
    · rw [if_neg hji] at hj
      cases hj
  have h2 : l ++ after = l.take i ++ z :: (l.drop (i + 1) ++ after) := by
    conv_lhs => rw [hsplit]
    simp
  rw [h2]
  exact c_str_of_zero_terminated _ _ _ hpre hzero

theorem data_c_str_is_chars_iff (v : string_view char_t) :
    v.data_c_str = some v.chars ↔
      (∀ c ∈ v.chars, char_type.code c ≠ 0) ∧
        ∃ z rest, v.after = z :: rest ∧ char_type.code z = 0 := by
  constructor
  · intro h
    obtain ⟨z, rest, h1, h2, h3⟩ := c_str_eq_some _ _ h
    exact ⟨h3, z, rest, List.append_cancel_left h1, h2⟩
  · rintro ⟨h3, z, rest, h1, h2⟩
    unfold string_view.data_c_str
    rw [h1]
    exact c_str_of_zero_terminated _ _ _ h3 h2

end c_string

/-- C18: `match_any_of` and `match_none_of` read `chars.data()` as a zero-terminated
array. For every view whose first zero code unit is at index `i`, whatever
follows the view in its buffer, they yield `[` (and `^`), the units of `chars`
before index `i`, `]`: everything from the first zero unit on is dropped. And
the body is exactly `chars` if and only if `chars` has no zero unit and the
buffer holds a zero unit right after the view. -/
theorem match_any_of_reads_to_first_zero {char_t : Type} [char_type char_t]
    (traits : char_traits char_t) :
    (∀ (v : string_view char_t) (i : Nat) (z : char_t),
      v.chars[i]? = some z → char_type.code z = 0 →
      (∀ j c, j < i → v.chars[j]? = some c → char_type.code c ≠ 0) →
      (match_any_of traits v).map regex_element.str
        = some ([traits.square_open] ++ v.chars.take i ++ [traits.square_close]) ∧
      (match_none_of traits v).map regex_element.str
        = some ([traits.square_open, traits.power_sign] ++ v.chars.take i
            ++ [traits.square_close])) ∧
    (∀ v : string_view char_t,
      ((match_any_of traits v).map regex_element.str
          = some ([traits.square_open] ++ v.chars ++ [traits.square_close]) ↔
        (∀ c ∈ v.chars, char_type.code c ≠ 0) ∧
          ∃ z rest, v.after = z :: rest ∧ char_type.code z = 0) ∧
      ((match_none_of traits v).map regex_element.str
          = some ([traits.square_open, traits.power_sign] ++ v.chars
              ++ [traits.square_close]) ↔
        (∀ c ∈ v.chars, char_type.code c ≠ 0) ∧
          ∃ z rest, v.after = z :: rest ∧ char_type.code z = 0)) := by
  refine ⟨?_, ?_⟩
  · intro v i z hz hzero hbefore
    have h := c_str_to_first_zero v.chars v.after i z hz hzero hbefore
    simp [match_any_of, match_none_of, string_view.data_c_str, h]
  · intro v
    rw [← data_c_str_is_chars_iff]
    constructor
    · cases hb : v.data_c_str with
      | none => simp [match_any_of, hb]
      | some b => simp [match_any_of, hb]
    · cases hb : v.data_c_str with
      | none => simp [match_none_of, hb]
      | some b => simp [match_none_of, hb]

/-- C18, at a concrete view: for the view of the three code units `a`, zero, `b`
in a string buffer, the first zero unit is at index 1 and `match_any_of`
yields `[a]`. -/
theorem match_any_of_reads_to_first_zero_witness :
    (match_any_of char_traits_char (string_view.of_string [97, 0, 98])).map regex_element.str
      = some [91, 97, 93] :=
  ((match_any_of_reads_to_first_zero char_traits_char).1 (string_view.of_string [97, 0, 98])
    1 0 rfl rfl (fun j c hj hc => by
      have hj0 : j = 0 := by omega
      subst hj0
      simp [string_view.of_string] at hc
      subst hc
      decide)).1

/-! ## Chains do not share state -/

theorem then_match_step_frame (σ : chain_store) (i j : Nat) (f : regex_element char)
    (hij : i ≠ j) : (chain_store.step σ (.then_match i f))[j]? = σ[j]? := by
  cases h : σ[i]? with
  | none => simp only [chain_store.step, h]
  | some c =>
    simp only [chain_store.step, h]
    exact List.getElem?_set_ne hij

theorem then_match_step_self (σ : chain_store) (i : Nat) (f : regex_element char)
    (c : basic_regex_chain_holder char) (hc : σ[i]? = some c) :
    (chain_store.step σ (.then_match i f))[i]? = some (c.then_match f) := by
  obtain ⟨hi, _⟩ := List.getElem?_eq_some.mp hc
  simp only [chain_store.step, hc]
  rw [List.getElem?_set]
  simp [hi]

/-- C14: whatever actions a program has taken on its chains before, a call of
`create_regex()` yields a chain whose text is empty and leaves every chain
built before as it was; `then_match` on one chain changes that chain alone:
the text of every other chain is unchanged; and a copy of a chain starts with
the text of the original, after which appending to either leaves the other
unchanged. -/
theorem chains_are_independent :
    (∀ history : List chain_action,
      (chain_store.step (chain_store.run [] history) .create_regex)[
          (chain_store.run [] history).length]?.map basic_regex_chain_holder.str
        = some [] ∧
      ∀ j, j < (chain_store.run [] history).length →
        (chain_store.step (chain_store.run [] history) .create_regex)[j]?
          = (chain_store.run [] history)[j]?) ∧
    (∀ (σ : chain_store) (i j : Nat) (f : regex_element char), i ≠ j →
      (chain_store.step σ (.then_match i f))[j]? = σ[j]?) ∧
    (∀ (σ : chain_store) (i : Nat) (f : regex_element char)
        (c : basic_regex_chain_holder char), σ[i]? = some c →
      (chain_store.step σ (.then_match i f))[i]?.map basic_regex_chain_holder.str
        = some (c.str ++ f.str)) ∧
    (∀ (σ : chain_store) (i : Nat) (f : regex_element char)
        (c : basic_regex_chain_holder char), σ[i]? = some c →
      (chain_store.step σ (.copy i))[σ.length]? = some c ∧
      (chain_store.step (chain_store.step σ (.copy i)) (.then_match σ.length f))[i]?
        = some c ∧
      (chain_store.step (chain_store.step σ (.copy i)) (.then_match i f))[σ.length]?
        = some c) := by
  refine ⟨?_, then_match_step_frame, ?_, ?_⟩
  · intro history
    refine ⟨?_, ?_⟩
    · simp [chain_store.step]
    · intro j hj
      simp only [chain_store.step]
      exact List.getElem?_append_left hj
  · intro σ i f c hc
    rw [then_match_step_self σ i f c hc]
    rfl
  · intro σ i f c hc
    obtain ⟨hi, _⟩ := List.getElem?_eq_some.mp hc
    have hcopy : chain_store.step σ (.copy i) = σ ++ [c] := by
      simp only [chain_store.step, hc]
    have hne : σ.length ≠ i := by omega
    refine ⟨?_, ?_, ?_⟩
    · rw [hcopy]
      exact List.getElem?_concat_length σ c
    · rw [then_match_step_frame _ _ _ _ hne, hcopy, List.getElem?_append_left hi]
      exact hc
    · rw [then_match_step_frame _ _ _ _ (Ne.symm hne), hcopy]
      exact List.getElem?_concat_length σ c

/-- C14, for a concrete program: a chain is created and `match_digit()` appended
to it, then a second chain is created; the second chain is empty and the first
still reads backslash, `d`; appending `match_any()` to the second leaves the
first unchanged. -/
theorem chains_are_independent_witness :
    (chain_store.run []
        [.create_regex, .then_match 0 (match_digit char_traits_char), .create_regex]).map
      basic_regex_chain_holder.str = [[92, 100], []] ∧
    (chain_store.step
        (chain_store.run []
          [.create_regex, .then_match 0 (match_digit char_traits_char), .create_regex])
        (.then_match 1 match_any))[0]?
      = (chain_store.run []
          [.create_regex, .then_match 0 (match_digit char_traits_char), .create_regex])[0]? :=
  ⟨rfl, chains_are_independent.2.1 _ 1 0 _ (by decide)⟩

/-! ## The wide variant -/

theorem wchar_t_of_numeral (n : Nat) : (OfNat.ofNat n : wchar_t) = ⟨n⟩ := rfl

theorem c_str_widen (l : List char) :
    c_str (l.map widen) = (c_str l).map (List.map widen) := by
  induction l with
  | nil => rfl
  | cons c cs ih =>
    by_cases hc : c = 0
    · subst hc
      rfl
    · have h1 : char_type.code c ≠ 0 := hc
      have h2 : char_type.code (widen c) ≠ 0 := hc
      simp only [List.map_cons, c_str, h1, h2, if_false, ih]
      cases c_str cs <;> rfl

/-- C15, what holds and where it fails: the wide symbol table is the narrow one
with every constant widened to the same code point, and every operation whose
body is typed for any character type returns, on widened arguments, the
narrow result widened. But the bodies of `match_n` and `match_n_or_more` add
the `std::string` of `std::to_string` to a `string_t`, and the body of
`create_regex` builds the chain from the narrow literal `""`: all operations
are well typed in the narrow variant, and in the wide variant all but these
three. -/
theorem wide_variant_lacks_three_operations :
    char_traits_wchar_t = char_traits.map widen char_traits_char ∧
    (∀ a b : char, match_range char_traits_wchar_t (widen a) (widen b)
      = (match_range char_traits_char a b).widen) ∧
    (∀ x y : RegElement char, match_or char_traits_wchar_t x.widen y.widen
      = (match_or char_traits_char x y).widen) ∧
    (match_any : regex_element wchar_t) = (match_any : regex_element char).widen ∧
    (∀ c : char, match_character (widen c) = (match_character c).widen) ∧
    (∀ v : string_view char, match_string v.widen = (match_string v).widen) ∧
    (match_space char_traits_wchar_t = (match_space char_traits_char).widen ∧
      match_alpha_char char_traits_wchar_t = (match_alpha_char char_traits_char).widen ∧
      match_digit char_traits_wchar_t = (match_digit char_traits_char).widen ∧
      match_not_space char_traits_wchar_t = (match_not_space char_traits_char).widen ∧
      match_not_alpha_char char_traits_wchar_t
        = (match_not_alpha_char char_traits_char).widen ∧
      match_not_digit char_traits_wchar_t = (match_not_digit char_traits_char).widen) ∧
    (∀ v : string_view char,
      match_any_of char_traits_wchar_t v.widen
        = (match_any_of char_traits_char v).map regex_element.widen ∧
      match_none_of char_traits_wchar_t v.widen
        = (match_none_of char_traits_char v).map regex_element.widen) ∧
    (∀ c : char, match_escaped_char char_traits_wchar_t (widen c)
      = (match_escaped_char char_traits_char c).widen) ∧
    (∀ x : RegElement char,
      match_zero_or_more char_traits_wchar_t x.widen
        = (match_zero_or_more char_traits_char x).widen ∧
      match_one_or_more char_traits_wchar_t x.widen
        = (match_one_or_more char_traits_char x).widen ∧
      match_zero_or_one char_traits_wchar_t x.widen
        = (match_zero_or_one char_traits_char x).widen) ∧
    (∀ (e : regex_element char) (c : basic_regex_chain_holder char),
      match_group char_traits_wchar_t e.widen = (match_group char_traits_char e).widen ∧
      match_group_chain char_traits_wchar_t c.widen
        = (match_group_chain char_traits_char c).widen ∧
      capture_group char_traits_wchar_t e.widen = (capture_group char_traits_char e).widen ∧
      capture_group_chain char_traits_wchar_t c.widen
        = (capture_group_chain char_traits_char c).widen) ∧
    (∀ v : string_view char,
      create_regex_from_string v.widen = (create_regex_from_string v).widen) ∧
    (∀ (c : basic_regex_chain_holder char) (f : regex_element char),
      c.widen.then_match f.widen = (c.then_match f).widen) ∧
    (∀ op : operation, operation.available .narrow op = true) ∧
    (∀ op : operation, operation.available .wide op = true ↔
      op ≠ .match_n ∧ op ≠ .match_n_or_more ∧ op ≠ .create_regex) ∧
    operation.available .wide .match_n = false ∧
    operation.available .wide .match_n_or_more = false ∧
    operation.available .wide .create_regex = false := by
  refine ⟨rfl, fun _ _ => rfl, ?_, rfl, fun _ => rfl, fun _ => rfl,
    ⟨rfl, rfl, rfl, rfl, rfl, rfl⟩, ?_, fun _ => rfl, ?_, ?_, fun _ => rfl, ?_, ?_, ?_,
    rfl, rfl, rfl⟩
  · intro x y
    cases x <;> cases y <;>
      simp [match_or, RegElement.widen, RegElement.str, regex_element.widen,
        basic_regex_chain_holder.widen, regex_element.of_string, regex_element.ctor,
        string_view.of_string, regex_element.str, basic_regex_chain_holder.str,
        char_traits_char, char_traits_wchar_t, widen, wchar_t_of_numeral]
  · intro v
    have h : v.widen.data_c_str = v.data_c_str.map (List.map widen) := by
      simp only [string_view.data_c_str, string_view.widen, ← List.map_append, c_str_widen]
    constructor
    · simp only [match_any_of, h]
      cases v.data_c_str <;>
        simp [regex_element.widen, regex_element.of_string, regex_element.ctor,
          string_view.of_string, char_traits_char, char_traits_wchar_t, widen, wchar_t_of_numeral]
    · simp only [match_none_of, h]
      cases v.data_c_str <;>
        simp [regex_element.widen, regex_element.of_string, regex_element.ctor,
          string_view.of_string, char_traits_char, char_traits_wchar_t, widen, wchar_t_of_numeral]
  · intro x
    cases x <;>
      simp [match_zero_or_more, match_one_or_more, match_zero_or_one, RegElement.widen,
        RegElement.str, regex_element.widen, basic_regex_chain_holder.widen,
        regex_element.of_string, regex_element.ctor, string_view.of_string, regex_element.str,
        basic_regex_chain_holder.str, char_traits_char, char_traits_wchar_t, widen, wchar_t_of_numeral]
  · intro e c
    simp [match_group, match_group_chain, capture_group, capture_group_chain,
      regex_element.widen, basic_regex_chain_holder.widen, regex_element.of_string,
      regex_element.ctor, string_view.of_string, regex_element.str,
      basic_regex_chain_holder.str, char_traits_char, char_traits_wchar_t, widen, wchar_t_of_numeral]
  · intro c f
    simp [basic_regex_chain_holder.then_match, regex_element.widen,
      basic_regex_chain_holder.widen, regex_element.str]
  · intro op
    cases op <;> rfl
  · intro op
    cases op <;> decide

/-! ## Round brackets stay balanced -/

theorem balanced_nil : balanced [] := by
  refine ⟨fun n => ?_, rfl⟩
  simp

theorem balanced_append {x y : List Nat} (hx : balanced x) (hy : balanced y) :
    balanced (x ++ y) := by
  refine ⟨fun n => ?_, ?_⟩
  · rw [List.take_append_eq_append_take, List.count_append, List.count_append]
    have h1 := hx.1 n
    have h2 := hy.1 (n - x.length)
    omega
  · rw [List.count_append, List.count_append, hx.2, hy.2]

theorem balanced_of_bracket_free {s : List Nat} (h : bracket_free s) : balanced s := by
  refine ⟨fun n => ?_, ?_⟩
  · have h41 : (s.take n).count 41 = 0 :=
      List.count_eq_zero.mpr (fun hm => h.2 (List.mem_of_mem_take hm))
    omega
  · rw [List.count_eq_zero.mpr h.1, List.count_eq_zero.mpr h.2]

theorem balanced_wrap {x : List Nat} (hx : balanced x) : balanced (40 :: (x ++ [41])) := by
  refine ⟨fun n => ?_, ?_⟩
  · cases n with
    | zero => simp
    | succ m =>
      rw [List.take_succ_cons, List.take_append_eq_append_take]
      simp only [List.count_cons, List.count_append]
      have h1 := hx.1 m
      have h2 : ((List.take (m - x.length) [41]).count 41) ≤ 1 := by
        have := List.count_le_length (41 : Nat) (List.take (m - x.length) [41])
        have h3 : (List.take (m - x.length) [41]).length ≤ 1 := by simp
        omega
      simp
      omega
  · simp only [List.count_cons, List.count_append, List.count_nil]
    have := hx.2
    simp
    omega

theorem balanced_group {x : List Nat} (hx : balanced x) :
    balanced (40 :: 63 :: 58 :: x ++ [41]) := by
  have h1 : balanced ([63, 58] ++ x) :=
    balanced_append (balanced_of_bracket_free (by simp [bracket_free])) hx
  simpa using balanced_wrap h1

theorem balanced_suffix {x s : List Nat} (hx : balanced x) (hs : bracket_free s) :
    balanced (x ++ s) :=
  balanced_append hx (balanced_of_bracket_free hs)

theorem to_string_bracket_free (n : Nat) : bracket_free (to_string n) := by
  obtain ⟨_, hdig, _, _⟩ := to_string_is_decimal_numeral n
  constructor
  · intro h
    have := hdig 40 h
    omega
  · intro h
    have := hdig 41 h
    omega

theorem c_str_subset_of_terminated (cs rest b : List char)
    (h : c_str (cs ++ (0 : char) :: rest) = some b) : ∀ x ∈ b, x ∈ cs := by
  induction cs generalizing b with
  | nil =>
    have h0 : c_str ((0 : char) :: rest) = some [] := rfl
    rw [List.nil_append, h0] at h
    cases h
    intro x hx
    cases hx
  | cons c cs ih =>
    by_cases hc : char_type.code c = 0
    · simp only [List.cons_append, c_str, hc, if_true] at h
      cases h
      intro x hx
      cases hx
    · simp only [List.cons_append, c_str, hc, if_false] at h
      change Option.map (fun r => c :: r) (c_str (cs ++ (0 : char) :: rest)) = some b at h
      cases hr : c_str (cs ++ (0 : char) :: rest) with
      | none => simp [hr] at h
      | some r =>
        simp only [hr, Option.map_some', Option.some.injEq] at h
        subst h
        intro x hx
        rcases List.mem_cons.mp hx with rfl | hx
        · exact List.mem_cons_self _ _
        · exact List.mem_cons_of_mem _ (ih r hr x hx)

theorem data_c_str_bracket_free (v : string_view char) (rest body : List char)
    (hv : bracket_free v.chars) (hafter : v.after = 0 :: rest)
    (hbody : v.data_c_str = some body) : bracket_free body := by
  unfold string_view.data_c_str at hbody
  rw [hafter] at hbody
  have hsub := c_str_subset_of_terminated _ _ _ hbody
  exact ⟨fun h => hv.1 (hsub _ h), fun h => hv.2 (hsub _ h)⟩

/-- Every fragment or chain built from an empty chain through the operations,
with no round bracket in a literal argument and with zero-terminated views
for the bracket bodies, has balanced round brackets. -/
theorem built_bracket_free_is_balanced {x : RegElement char} (h : BuiltBracketFree x) :
    balanced x.str := by
  induction h with
  | create_regex => exact balanced_nil
  | then_match c f _ _ ihc ihf => exact balanced_append ihc ihf
  | match_range a b hab =>
    apply balanced_of_bracket_free
    simp only [bracket_free, List.mem_cons, List.mem_singleton, List.not_mem_nil,
      or_false] at hab
    simp [bracket_free, RegElement.str, match_range, char_traits_char]
    omega
  | match_or x y _ _ ihx ihy =>
    have := balanced_append (balanced_suffix ihx (s := [124]) (by simp [bracket_free])) ihy
    simpa [RegElement.str, match_or, char_traits_char] using this
  | match_any => exact balanced_of_bracket_free (by unfold bracket_free; decide)
  | match_character c hc =>
    exact balanced_of_bracket_free (by simpa [RegElement.str, match_character] using hc)
  | match_string s hs => exact balanced_of_bracket_free hs
  | match_space => exact balanced_of_bracket_free (by unfold bracket_free; decide)
  | match_alpha_char => exact balanced_of_bracket_free (by unfold bracket_free; decide)
  | match_digit => exact balanced_of_bracket_free (by unfold bracket_free; decide)
  | match_not_space => exact balanced_of_bracket_free (by unfold bracket_free; decide)
  | match_not_alpha_char => exact balanced_of_bracket_free (by unfold bracket_free; decide)
  | match_not_digit => exact balanced_of_bracket_free (by unfold bracket_free; decide)
  | match_any_of chars rest e hc hafter he =>
    cases hb : chars.data_c_str with
    | none => simp [match_any_of, hb] at he
    | some body =>
      have hbf := data_c_str_bracket_free chars rest body hc hafter hb
      simp only [match_any_of, hb, Option.map_some', Option.some.injEq] at he
      subst he
      apply balanced_of_bracket_free
      have h1 := hbf.1
      have h2 := hbf.2
      simp [bracket_free, RegElement.str, char_traits_char, h1, h2]
  | match_none_of chars rest e hc hafter he =>
    cases hb : chars.data_c_str with
    | none => simp [match_none_of, hb] at he
    | some body =>
      have hbf := data_c_str_bracket_free chars rest body hc hafter hb
      simp only [match_none_of, hb, Option.map_some', Option.some.injEq] at he
      subst he
      apply balanced_of_bracket_free
      have h1 := hbf.1
      have h2 := hbf.2
      simp [bracket_free, RegElement.str, char_traits_char, h1, h2]
  | match_escaped_char c hc =>
    apply balanced_of_bracket_free
    simp only [bracket_free, List.mem_singleton] at hc
    simp [bracket_free, RegElement.str, match_escaped_char, char_traits_char]
    omega
  | match_zero_or_more x _ ih => exact balanced_suffix ih (by simp [bracket_free, char_traits_char])
  | match_one_or_more x _ ih => exact balanced_suffix ih (by simp [bracket_free, char_traits_char])
  | match_zero_or_one x _ ih => exact balanced_suffix ih (by simp [bracket_free, char_traits_char])
  | match_n x n _ ih =>
    have := balanced_suffix (balanced_suffix (balanced_suffix ih (s := [123])
      (by simp [bracket_free])) (to_string_bracket_free n)) (s := [125]) (by simp [bracket_free])
    simpa [RegElement.str, match_n, char_traits_char] using this
  | match_n_or_more x n _ ih =>
    have := balanced_suffix (balanced_suffix (balanced_suffix ih (s := [123])
      (by simp [bracket_free])) (to_string_bracket_free n)) (s := [44, 125])
      (by simp [bracket_free])
    simpa [RegElement.str, match_n_or_more, char_traits_char] using this
  | match_group e _ ih => exact balanced_group ih
  | match_group_chain c _ ih => exact balanced_group ih
  | capture_group e _ ih => exact balanced_wrap ih
  | capture_group_chain c _ ih => exact balanced_wrap ih

/-- C19, what holds and where it fails: for operands with balanced text,
`match_or`, the quantifiers, `match_n`, `match_n_or_more`, `match_group`,
`capture_group` and `then_match` yield balanced text, in both variants; and
every fragment or chain built from an empty chain through the operations has
balanced round brackets when no literal argument holds one and the views
handed to `match_any_of` / `match_none_of` are followed by a zero unit. But
`match_any_of` reads past the end of a view that is not: for the view of the
first three characters of the buffer `abc(`, an argument without a round
bracket, it yields `[abc(]`, which is not balanced. -/
theorem round_brackets_balance_unless_read_past_view :
    (∀ x y : RegElement char, balanced x.str → balanced y.str →
      balanced (match_or char_traits_char x y).str) ∧
    (∀ x : RegElement char, balanced x.str →
      balanced (match_zero_or_more char_traits_char x).str ∧
      balanced (match_one_or_more char_traits_char x).str ∧
      balanced (match_zero_or_one char_traits_char x).str ∧
      ∀ n : size_t, balanced (match_n char_traits_char x n).str ∧
        balanced (match_n_or_more char_traits_char x n).str) ∧
    (∀ e : regex_element char, balanced e.str →
      balanced (match_group char_traits_char e).str ∧
      balanced (capture_group char_traits_char e).str) ∧
    (∀ c : basic_regex_chain_holder char, balanced c.str →
      balanced (match_group_chain char_traits_char c).str ∧
      balanced (capture_group_chain char_traits_char c).str) ∧
    (∀ (c : basic_regex_chain_holder char) (f : regex_element char),
      balanced c.str → balanced f.str → balanced (c.then_match f).str) ∧
    (∀ x y : RegElement wchar_t, balanced (x.str.map wchar_t.code) →
      balanced (y.str.map wchar_t.code) →
      balanced ((match_or char_traits_wchar_t x y).str.map wchar_t.code) ∧
      balanced ((match_zero_or_more char_traits_wchar_t x).str.map wchar_t.code) ∧
      balanced ((match_one_or_more char_traits_wchar_t x).str.map wchar_t.code) ∧
      balanced ((match_zero_or_one char_traits_wchar_t x).str.map wchar_t.code)) ∧
    (∀ (e : regex_element wchar_t) (c : basic_regex_chain_holder wchar_t),
      balanced (e.str.map wchar_t.code) → balanced (c.str.map wchar_t.code) →
      balanced ((match_group char_traits_wchar_t e).str.map wchar_t.code) ∧
      balanced ((capture_group char_traits_wchar_t e).str.map wchar_t.code) ∧
      balanced ((match_group_chain char_traits_wchar_t c).str.map wchar_t.code) ∧
      balanced ((capture_group_chain char_traits_wchar_t c).str.map wchar_t.code) ∧
      balanced ((c.then_match e).str.map wchar_t.code)) ∧
    (∀ x : RegElement char, BuiltBracketFree x → balanced x.str) ∧
    (bracket_free [97, 98, 99] ∧
      (match_any_of char_traits_char
          { chars := [97, 98, 99], after := [40, 0] }).map regex_element.str
        = some [91, 97, 98, 99, 40, 93] ∧
      ¬ balanced [91, 97, 98, 99, 40, 93]) := by
  have bar : bracket_free [124] := by simp [bracket_free]
  refine ⟨?_, ?_, ?_, ?_, ?_, ?_, ?_, fun x hx => built_bracket_free_is_balanced hx, ?_⟩
  · intro x y hx hy
    have := balanced_append (balanced_suffix hx bar) hy
    simpa [match_or, char_traits_char] using this
  · intro x hx
    refine ⟨balanced_suffix hx (by simp [bracket_free, char_traits_char]),
      balanced_suffix hx (by simp [bracket_free, char_traits_char]),
      balanced_suffix hx (by simp [bracket_free, char_traits_char]), fun n => ⟨?_, ?_⟩⟩
    · have := balanced_suffix (balanced_suffix (balanced_suffix hx (s := [123])
        (by simp [bracket_free])) (to_string_bracket_free n)) (s := [125])
        (by simp [bracket_free])
      simpa [match_n, char_traits_char] using this
    · have := balanced_suffix (balanced_suffix (balanced_suffix hx (s := [123])
        (by simp [bracket_free])) (to_string_bracket_free n)) (s := [44, 125])
        (by simp [bracket_free])
      simpa [match_n_or_more, char_traits_char] using this
  · exact fun e he => ⟨balanced_group he, balanced_wrap he⟩
  · exact fun c hc => ⟨balanced_group hc, balanced_wrap hc⟩
  · exact fun c f hc hf => balanced_append hc hf
  · intro x y hx hy
    refine ⟨?_, ?_, ?_, ?_⟩
    · have := balanced_append (balanced_suffix hx bar) hy
      simpa [match_or, char_traits_wchar_t, wchar_t_of_numeral] using this
    · have := balanced_suffix hx (s := [42]) (by simp [bracket_free])
      simpa [match_zero_or_more, char_traits_wchar_t, wchar_t_of_numeral] using this
    · have := balanced_suffix hx (s := [43]) (by simp [bracket_free])
      simpa [match_one_or_more, char_traits_wchar_t, wchar_t_of_numeral] using this
    · have := balanced_suffix hx (s := [63]) (by simp [bracket_free])
      simpa [match_zero_or_one, char_traits_wchar_t, wchar_t_of_numeral] using this
  · intro e c he hc
    refine ⟨?_, ?_, ?_, ?_, ?_⟩
    · simpa [match_group, char_traits_wchar_t, wchar_t_of_numeral] using balanced_group he
    · simpa [capture_group, char_traits_wchar_t, wchar_t_of_numeral] using balanced_wrap he
    · simpa [match_group_chain, char_traits_wchar_t, wchar_t_of_numeral]
        using balanced_group hc
    · simpa [capture_group_chain, char_traits_wchar_t, wchar_t_of_numeral]
        using balanced_wrap hc
    · simpa using balanced_append hc he
  · refine ⟨by simp [bracket_free], by decide, ?_⟩
    intro h
    have := h.2
    simp at this

end mvg.regex
